import Mathlib

/-! # step: lock manager and release entity

A shallow embedding of the release entity of `bifrost/release.go` and of the
object-store lock protocol it calls into (`aws/s3`), followed by the theorems
settling the contract claims about them.

Conventions of the embedding:

* a Go `*string`, `*int`, `*time.Time` is an `Option`; `none` is the nil pointer;
* a Go `error` result is an `Option Err`; `none` is the nil error;
* a function that dereferences a pointer returns an `Option`; `none` is the
  nil-dereference panic;
* the object store is passed explicitly: every operation returns the client
  state it leaves behind, together with the list of calls issued so far;
* `time.Now()` is an explicit argument `now`.
-/

/-- Go `time.Time`, counted in nanoseconds since the epoch. -/
abbrev Time := Int

/-- Go `time.Duration`, counted in nanoseconds. -/
abbrev Duration := Int

namespace time

/-- The constant `time.Second`. -/
def Second : Duration := 1000000000

/-- The constant `time.Minute`. -/
def Minute : Duration := 60 * Second

/-- The constant `time.Hour`. -/
def Hour : Duration := 60 * Minute

end time

/-- Go error values met in the embedded code, one constructor per dynamic type:
`fmt.Errorf`, `*s3.NotFoundError`, `*errors.LockExistsError`, `*errors.LockError`. -/
inductive Err where
  | Errorf (msg : String)
  | NotFoundError (msg : String)
  | LockExistsError (cause : String)
  | LockError (cause : String)
  deriving DecidableEq, Repr

/-- The method `err.Error()`: the text an error carries. -/
def Err.Error : Err → String
  | Err.Errorf msg => msg
  | Err.NotFoundError msg => msg
  | Err.LockExistsError cause => cause
  | Err.LockError cause => cause

/-- The dynamic type of the error is `*errors.LockExistsError`. -/
def Err.isLockExistsError : Err → Bool
  | Err.LockExistsError _ => true
  | _ => false

/-- The dynamic type of the error is `*errors.LockError`. -/
def Err.isLockError : Err → Bool
  | Err.LockError _ => true
  | _ => false

/-- The dynamic type of the error is `*s3.NotFoundError`. -/
def Err.isNotFoundError : Err → Bool
  | Err.NotFoundError _ => true
  | _ => false

namespace s3

/-- An object of the store: its body and its last-modified time. -/
structure Object where
  body : String
  lastModified : Time
  deriving DecidableEq, Repr

/-- What a read of one key answers when the key is not absent: an object, or a
failure of the read itself. -/
inductive Entry where
  | object (o : Object)
  | unreadable (msg : String)
  deriving DecidableEq, Repr

/-- One request issued to the object store. -/
inductive Call where
  | get (bucket : Option String) (path : String)
  | put (bucket : Option String) (path : String) (body : String)
  | delete (bucket : Option String) (path : String)
  deriving DecidableEq, Repr

/-- The request is a write (a PUT or a DELETE). -/
def Call.isWrite : Call → Bool
  | Call.get _ _ => false
  | Call.put _ _ _ => true
  | Call.delete _ _ => true

end s3

namespace aws

/-- Modelled from the spec: the object store behind `aws.S3API` ("a key/value
object store with get/put/delete and not-found semantics"), whose
implementation is not part of the sources. A key is a bucket and a path.
`entries` is what a read of each key answers (no entry: not found), `putErr`
and `deleteErr` list the keys whose writes and deletes fail, `clock` stamps the
objects written, and `calls` records every request issued, oldest first. -/
structure S3API where
  entries : List ((String × String) × s3.Entry)
  putErr : List ((String × String) × String)
  deleteErr : List ((String × String) × String)
  clock : Time
  calls : List s3.Call
  deriving DecidableEq, Repr

/-- The client state with one more request recorded. -/
def S3API.record (s3c : S3API) (c : s3.Call) : S3API :=
  { s3c with calls := s3c.calls ++ [c] }

/-- What a read of the key answers: `none` when no object exists there. -/
def S3API.find (s3c : S3API) (bucket path : String) : Option s3.Entry :=
  s3c.entries.lookup (bucket, path)

end aws

namespace s3

/-- Modelled from the spec: `s3.Get`/`s3.GetObject` (not part of the sources),
the read of one object. A missing object is a `NotFoundError`, any other
failure a plain error; a nil bucket is refused by the client before the store
is consulted. -/
def Get (s3c : aws.S3API) (bucket : Option String) (path : String) :
    Except Err Object × aws.S3API :=
  let s := s3c.record (Call.get bucket path)
  match bucket with
  | none => (Except.error (Err.Errorf "InvalidParameter: missing required field Bucket"), s)
  | some b =>
    match s3c.find b path with
    | none => (Except.error (Err.NotFoundError ("S3 object not found: " ++ b ++ "/" ++ path)), s)
    | some (Entry.unreadable msg) => (Except.error (Err.Errorf msg), s)
    | some (Entry.object o) => (Except.ok o, s)

/-- Modelled from the spec: `s3.Put`/`s3.PutStr` (not part of the sources), the
write of one object. A failed write returns its error and leaves the entries as
they were; a successful one replaces the entry of the key. -/
def Put (s3c : aws.S3API) (bucket : Option String) (path : String) (body : String) :
    Option Err × aws.S3API :=
  let s := s3c.record (Call.put bucket path body)
  match bucket with
  | none => (some (Err.Errorf "InvalidParameter: missing required field Bucket"), s)
  | some b =>
    match s3c.putErr.lookup (b, path) with
    | some msg => (some (Err.Errorf msg), s)
    | none =>
      (none, { s with entries :=
        ((b, path), Entry.object ⟨body, s3c.clock⟩) ::
          s3c.entries.filter (fun e => !(e.1 == (b, path))) })

/-- Modelled from the spec: `s3.Delete` (not part of the sources), the removal
of one object. A failed delete returns its error and leaves the entries as they
were; a successful one removes the entry of the key. -/
def Delete (s3c : aws.S3API) (bucket : Option String) (path : String) :
    Option Err × aws.S3API :=
  let s := s3c.record (Call.delete bucket path)
  match bucket with
  | none => (some (Err.Errorf "InvalidParameter: missing required field Bucket"), s)
  | some b =>
    match s3c.deleteErr.lookup (b, path) with
    | some msg => (some (Err.Errorf msg), s)
    | none => (none, { s with entries := s3c.entries.filter (fun e => !(e.1 == (b, path))) })

/-- Modelled from the spec: `s3.GetStruct` (not part of the sources): fetch the
object and deserialize its body into the destination; `Unmarshal` is the
deserializer of the destination's type. A body that does not deserialize is a
failure of the read. -/
def GetStruct {α : Type} (Unmarshal : String → Option α) (s3c : aws.S3API)
    (bucket : Option String) (path : String) : Except Err α × aws.S3API :=
  match Get s3c bucket path with
  | (Except.error e, s) => (Except.error e, s)
  | (Except.ok o, s) =>
    match Unmarshal o.body with
    | none => (Except.error (Err.Errorf "unexpected end of JSON input"), s)
    | some v => (Except.ok v, s)

/-- The lock object body: "a small record with a holder id field (`uuid`)". -/
structure Lock where
  UUID : String
  deriving DecidableEq, Repr

/-- The serialization of lock records (`encoding/json` in the program). -/
structure LockCodec where
  Marshal : Lock → String
  Unmarshal : String → Option Lock

/-- The codec reads back what it wrote. -/
def LockCodec.Lawful (codec : LockCodec) : Prop :=
  ∀ l : Lock, codec.Unmarshal (codec.Marshal l) = some l

/-- Modelled from the spec: `s3.GrabLock` (not part of the sources; its tests
are). "Read the lock object; if absent, or present with an id equal to the
requester's, write (PUT) a lock object containing the requester's id, then
report grabbed = true. If present with a different id, report grabbed = false
with no write." A write that fails is reported with grabbed = true and the
error; a read that fails otherwise than by not-found is reported with
grabbed = false and the error, before anything is written. -/
def GrabLock (codec : LockCodec) (s3c : aws.S3API) (bucket : Option String) (path : String)
    (uuid : String) : (Bool × Option Err) × aws.S3API :=
  match GetStruct codec.Unmarshal s3c bucket path with
  | (Except.error (Err.NotFoundError _), s) =>
    match Put s bucket path (codec.Marshal ⟨uuid⟩) with
    | (err, s') => ((true, err), s')
  | (Except.error e, s) => ((false, some e), s)
  | (Except.ok l, s) =>
    if l.UUID = uuid then
      match Put s bucket path (codec.Marshal ⟨uuid⟩) with
      | (err, s') => ((true, err), s')
    else ((false, none), s)

/-- Modelled from the spec: `s3.ReleaseLock` (not part of the sources; its
tests are). "Read the current holder; if absent, no-op success; if the holder
id equals the requester's, delete; if the holder id differs, fail with an
error." A read that fails otherwise than by not-found is returned as the
error, and nothing is deleted. -/
def ReleaseLock (codec : LockCodec) (s3c : aws.S3API) (bucket : Option String) (path : String)
    (uuid : String) : Option Err × aws.S3API :=
  match GetStruct codec.Unmarshal s3c bucket path with
  | (Except.error (Err.NotFoundError _), s) => (none, s)
  | (Except.error e, s) => (some e, s)
  | (Except.ok l, s) =>
    if l.UUID = uuid then Delete s bucket path
    else (some (Err.Errorf "Locked with another UUID"), s)

/-- Modelled from the spec: `s3.CheckUserLock` (not part of the sources; its
tests are). "Read-only probe of a user-lock object; presence of any record
(regardless of holder id) is a hard stop." A read that fails otherwise than by
not-found is returned as the error. -/
def CheckUserLock (s3c : aws.S3API) (bucket : Option String) (path : String) :
    Option Err × aws.S3API :=
  match Get s3c bucket path with
  | (Except.error (Err.NotFoundError _), s) => (none, s)
  | (Except.error e, s) => (some e, s)
  | (Except.ok _, s) => (some (Err.Errorf ("Deploys locked by user lock at " ++ path)), s)

/-- The holder recorded at a key: the `uuid` of the lock record stored there,
when there is an object and it deserializes as a lock record. -/
def holder (codec : LockCodec) (s3c : aws.S3API) (bucket path : String) : Option String :=
  match s3c.find bucket path with
  | some (Entry.object o) => (codec.Unmarshal o.body).map Lock.UUID
  | _ => none

/-- Reads of the lock at the key do not fail: the key is absent, or holds an
object that deserializes as a lock record. -/
def ReadsOk (codec : LockCodec) (s3c : aws.S3API) (bucket path : String) : Prop :=
  s3c.find bucket path = none ∨ (holder codec s3c bucket path).isSome = true

/-- Writes to the key do not fail. -/
def WritesOk (s3c : aws.S3API) (bucket path : String) : Prop :=
  s3c.putErr.lookup (bucket, path) = none

/-- Deletes of the key do not fail. -/
def DeletesOk (s3c : aws.S3API) (bucket path : String) : Prop :=
  s3c.deleteErr.lookup (bucket, path) = none

end s3

namespace is

/-- Modelled from the spec: `is.EmptyStr` (not part of the sources): the string
pointer is nil or points to the empty string ("must all be non-empty"). -/
def EmptyStr (s : Option String) : Bool :=
  match s with
  | none => true
  | some v => decide (v = "")

/-- Modelled from the spec: `is.WithinTimeFrame` (not part of the sources): the
time is set and falls within the window around `now` that is "not older than"
`back` and "not more than" `forward` "in the future". -/
def WithinTimeFrame (now : Time) (t : Option Time) (back forward : Duration) : Bool :=
  match t with
  | none => false
  | some v => decide (now - back ≤ v) && decide (v ≤ now + forward)

end is

/-- The struct `ReleaseError`: the error and cause for the state machine. -/
structure ReleaseError where
  Error : Option String
  Cause : Option String
  deriving DecidableEq, Repr

/-- The struct `Release`: the data structure passed between client and deployer. -/
structure Release where
  AwsAccountID : Option String
  AwsRegion : Option String
  ReleaseSHA256 : String
  UUID : Option String
  ReleaseID : Option String
  ProjectName : Option String
  ConfigName : Option String
  Bucket : Option String
  CreatedAt : Option Time
  StartedAt : Option Time
  Timeout : Option Int
  Metadata : List (String × String)
  Error : Option ReleaseError
  Success : Option Bool
  deriving DecidableEq, Repr

/-- One call made on a `Locker`. -/
inductive LockerCall where
  | GrabLock (ns lockPath uuid reason : String)
  | ReleaseLock (ns lockPath uuid : String)
  deriving DecidableEq, Repr

/-- The interface `Locker`, over the state `σ` of the keyed store behind it. -/
structure Locker (σ : Type) where
  GrabLock : σ → String → String → String → String → (Bool × Option Err) × σ
  ReleaseLock : σ → String → String → String → Option Err × σ

/-- The keyed store behind a `Locker`, with the calls made on the locker so far,
oldest first. -/
structure LockerState (σ : Type) where
  store : σ
  calls : List LockerCall

/-- The call `locker.GrabLock(...)`, recorded. -/
def Locker.grab {σ : Type} (locker : Locker σ) (ls : LockerState σ)
    (ns lockPath uuid reason : String) : (Bool × Option Err) × LockerState σ :=
  match locker.GrabLock ls.store ns lockPath uuid reason with
  | (out, st) => (out, ⟨st, ls.calls ++ [LockerCall.GrabLock ns lockPath uuid reason]⟩)

/-- The call `locker.ReleaseLock(...)`, recorded. -/
def Locker.release {σ : Type} (locker : Locker σ) (ls : LockerState σ)
    (ns lockPath uuid : String) : Option Err × LockerState σ :=
  match locker.ReleaseLock ls.store ns lockPath uuid with
  | (err, st) => (err, ⟨st, ls.calls ++ [LockerCall.ReleaseLock ns lockPath uuid]⟩)

/-- The destination `cRelease interface{}` handed to `Validate`: whether it is a
pointer, how the uploaded release deserializes into it, and the hash
`to.SHA256Struct` computes of the result (neither is part of the sources). -/
structure Destination (α : Type) where
  isPtr : Bool
  Unmarshal : String → Option α
  SHA256Struct : α → String

namespace Release

/-- Method `ProjectDir`: account, `/`, project. -/
def ProjectDir (r : Release) : Option String :=
  match r.AwsAccountID, r.ProjectName with
  | some a, some p => some (a ++ "/" ++ p)
  | _, _ => none

/-- Method `RootDir`: `ProjectDir`, `/`, config. -/
def RootDir (r : Release) : Option String :=
  match r.ProjectDir, r.ConfigName with
  | some d, some c => some (d ++ "/" ++ c)
  | _, _ => none

/-- Method `ReleaseDir`: `RootDir`, `/`, release id. -/
def ReleaseDir (r : Release) : Option String :=
  match r.RootDir, r.ReleaseID with
  | some d, some i => some (d ++ "/" ++ i)
  | _, _ => none

/-- Method `ReleasePath`: `ReleaseDir` followed by `/release`. -/
def ReleasePath (r : Release) : Option String :=
  r.ReleaseDir.map (fun d => d ++ "/release")

/-- Method `LogPath`: `ReleaseDir` followed by `/log`. -/
def LogPath (r : Release) : Option String :=
  r.ReleaseDir.map (fun d => d ++ "/log")

/-- Method `SharedProjectDir`: `ProjectDir` followed by `/_shared`. -/
def SharedProjectDir (r : Release) : Option String :=
  r.ProjectDir.map (fun d => d ++ "/_shared")

/-- Method `ReleaseLockPath`: `ReleaseDir` followed by `/lock`. -/
def ReleaseLockPath (r : Release) : Option String :=
  r.ReleaseDir.map (fun d => d ++ "/lock")

/-- Method `RootLockPath`: `RootDir` followed by `/lock`. -/
def RootLockPath (r : Release) : Option String :=
  r.RootDir.map (fun d => d ++ "/lock")

/-- Method `UserLockPath`: `RootDir` followed by `/user-lock`. -/
def UserLockPath (r : Release) : Option String :=
  r.RootDir.map (fun d => d ++ "/user-lock")

/-- Method `HaltPath`: `RootDir` followed by `/halt`. -/
def HaltPath (r : Release) : Option String :=
  r.RootDir.map (fun d => d ++ "/halt")

/-- Method `validateReleaseSHA`: fetch the uploaded release into the destination and
compare its hash with the one recorded in the release. -/
def validateReleaseSHA {α : Type} (r : Release) (s3c : aws.S3API) (cRelease : Destination α) :
    Option (Option Err × aws.S3API) :=
  match r.ReleasePath with
  | none => none
  | some path =>
    match s3.GetStruct cRelease.Unmarshal s3c r.Bucket path with
    | (Except.error err, s) =>
      some (some (Err.Errorf ("Error Unmarshalling uploaded Release struct with " ++ err.Error)), s)
    | (Except.ok v, s) =>
      let expected := cRelease.SHA256Struct v
      if expected ≠ r.ReleaseSHA256 then
        some (some (Err.Errorf
          ("Release SHA incorrect expected " ++ expected ++ ", got " ++ r.ReleaseSHA256)), s)
      else some (none, s)

/-- Method `Validate`: the attributes are assigned, the time frame of created-at is
valid, the uploaded release hash is correct. -/
def Validate {α : Type} (r : Release) (now : Time) (s3c : aws.S3API) (cRelease : Destination α) :
    Option (Option Err × aws.S3API) :=
  if !cRelease.isPtr then
    some (some (Err.Errorf "Release passed to Validate must be pointer e.g. &Release\x7b\x7d"), s3c)
  else if is.EmptyStr r.AwsAccountID then
    some (some (Err.Errorf "AwsAccountID must be defined"), s3c)
  else if is.EmptyStr r.AwsRegion then
    some (some (Err.Errorf "AwsRegion must be defined"), s3c)
  else if is.EmptyStr r.UUID then
    some (some (Err.Errorf "UUID must be set by server"), s3c)
  else if is.EmptyStr r.ReleaseID then
    some (some (Err.Errorf "ReleaseID must be defined"), s3c)
  else if is.EmptyStr r.ProjectName then
    some (some (Err.Errorf "ProjectName must be defined"), s3c)
  else if is.EmptyStr r.ConfigName then
    some (some (Err.Errorf "ConfigName must be defined"), s3c)
  else if is.EmptyStr r.Bucket then
    some (some (Err.Errorf "Bucket must be defined"), s3c)
  else if r.Timeout = none then
    some (some (Err.Errorf "Timeout must be defined"), s3c)
  else if r.CreatedAt = none then
    some (some (Err.Errorf "CreatedAt must be defined"), s3c)
  else if r.StartedAt = none then
    some (some (Err.Errorf "StartedAt must be defined"), s3c)
  else if !is.WithinTimeFrame now r.CreatedAt (10 * 24 * time.Hour) (2 * time.Minute) then
    some (some (Err.Errorf "Created at older than 10 days (or in the future)"), s3c)
  else
    match r.validateReleaseSHA s3c cRelease with
    | none => none
    | some (some err, s) => some (some err, s)
    | some (none, s) => some (none, s)

/-- Method `CheckUserLock`: the user-lock probe, its failure wrapped as a
`LockExistsError`. -/
def CheckUserLock (r : Release) (s3c : aws.S3API) (lockPath : String) : Option Err × aws.S3API :=
  match s3.CheckUserLock s3c r.Bucket lockPath with
  | (some err, s) => (some (Err.LockExistsError ("CheckUserLock error: " ++ err.Error)), s)
  | (none, s) => (none, s)

/-- Method `grabS3Lock`: grab the object-store lock and classify the outcome. -/
def grabS3Lock (r : Release) (codec : s3.LockCodec) (s3c : aws.S3API) (lockPath : String) :
    Option (Option Err × aws.S3API) :=
  match r.UUID with
  | none => none
  | some uuid =>
    match s3.GrabLock codec s3c r.Bucket lockPath uuid with
    | ((false, some err), s) => some (some (Err.LockExistsError err.Error), s)
    | ((false, none), s) =>
      match r.Bucket with
      | none => none
      | some bucket =>
        some (some (Err.LockExistsError
          ("S3 Lock Already Exists at " ++ bucket ++ ":" ++ lockPath ++
            "\nRun the following to clear it: aws s3 rm s3://" ++ bucket ++ "/" ++ lockPath)), s)
    | ((true, some err), s) => some (some (Err.LockError err.Error), s)
    | ((true, none), s) => some (none, s)

/-- Method `grabGenericLock`: grab the lock through the `Locker` and classify the
outcome. -/
def grabGenericLock {σ : Type} (r : Release) (locker : Locker σ) (ls : LockerState σ)
    (lockTableName : String) (lockPath : String) : Option (Option Err × LockerState σ) :=
  match r.UUID with
  | none => none
  | some uuid =>
    match locker.grab ls lockTableName lockPath uuid "" with
    | ((false, some err), st) => some (some (Err.LockExistsError err.Error), st)
    | ((false, none), st) =>
      some (some (Err.LockExistsError
        ("Lock Already Exists at " ++ lockTableName ++ ":" ++ lockPath ++
          "\nRun the following to clear it: aws dynamodb delete-item --table-name " ++
          lockTableName ++ " --key=\x27\x7b\"key\": \x7b\"S\": \"" ++ lockPath ++
          "\" \x7d\x7d\x27")), st)
    | ((true, some err), st) => some (some (Err.LockError err.Error), st)
    | ((true, none), st) => some (none, st)

/-- Method `GrabRootLock`: the root lock, through the `Locker`. -/
def GrabRootLock {σ : Type} (r : Release) (locker : Locker σ) (ls : LockerState σ)
    (lockTableName : String) : Option (Option Err × LockerState σ) :=
  match r.RootLockPath with
  | none => none
  | some lockPath => r.grabGenericLock locker ls lockTableName lockPath

/-- Method `GrabReleaseLock`: the release lock, in the object store. -/
def GrabReleaseLock (r : Release) (codec : s3.LockCodec) (s3c : aws.S3API) :
    Option (Option Err × aws.S3API) :=
  match r.ReleaseLockPath with
  | none => none
  | some lockPath => r.grabS3Lock codec s3c lockPath

/-- Method `GrabLocks`: the user-lock check, then the release lock, then the root lock. -/
def GrabLocks {σ : Type} (r : Release) (codec : s3.LockCodec) (s3c : aws.S3API)
    (locker : Locker σ) (ls : LockerState σ) (lockTableName : String) :
    Option (Option Err × aws.S3API × LockerState σ) :=
  match r.UserLockPath with
  | none => none
  | some userLockPath =>
    match r.CheckUserLock s3c userLockPath with
    | (some err, s1) => some (some err, s1, ls)
    | (none, s1) =>
      match r.GrabReleaseLock codec s1 with
      | none => none
      | some (some err, s2) => some (some err, s2, ls)
      | some (none, s2) =>
        match r.GrabRootLock locker ls lockTableName with
        | none => none
        | some (some err, ls') => some (some err, s2, ls')
        | some (none, ls') => some (none, s2, ls')

/-- Method `UnlockRoot`: release the root lock through the `Locker`. -/
def UnlockRoot {σ : Type} (r : Release) (locker : Locker σ) (ls : LockerState σ)
    (lockTableName : String) : Option (Option Err × LockerState σ) :=
  match r.RootLockPath, r.UUID with
  | some lockPath, some uuid => some (locker.release ls lockTableName lockPath uuid)
  | _, _ => none

/-- The ten required fields in the order of their checks, each with whether it
is unset: nil or empty for a string, nil for the timeout and the two times. -/
def requiredFields (r : Release) : List (String × Bool) :=
  [("AwsAccountID", is.EmptyStr r.AwsAccountID), ("AwsRegion", is.EmptyStr r.AwsRegion),
    ("UUID", is.EmptyStr r.UUID), ("ReleaseID", is.EmptyStr r.ReleaseID),
    ("ProjectName", is.EmptyStr r.ProjectName), ("ConfigName", is.EmptyStr r.ConfigName),
    ("Bucket", is.EmptyStr r.Bucket), ("Timeout", r.Timeout.isNone),
    ("CreatedAt", r.CreatedAt.isNone), ("StartedAt", r.StartedAt.isNone)]

/-- The name of the first required field that is unset, in the order above. -/
def firstUnset (r : Release) : Option String :=
  (r.requiredFields.find? (fun f => f.2)).map (fun f => f.1)

/-- What the error of `Validate` says of an unset field after naming it. -/
def unsetSuffix (field : String) : String :=
  if field = "UUID" then " must be set by server" else " must be defined"

end Release

namespace machine

/-- A retry rule of a task state: `ErrorEquals`, `MaxAttempts`, `IntervalSeconds`. -/
structure Retrier where
  ErrorEquals : List String
  MaxAttempts : Nat
  IntervalSeconds : Nat
  deriving DecidableEq, Repr

/-- A catch rule of a task state: `ErrorEquals`, `ResultPath`, `Next`. -/
structure Catcher where
  ErrorEquals : List String
  ResultPath : String
  Next : String
  deriving DecidableEq, Repr

/-- A state specification of a workflow definition, by its `Type`: a task
(`TaskFn`) with its resource, default next state, ordered retry rules and
ordered catch rules; `Fail` with its error tag; `Succeed`. -/
inductive State where
  | TaskFn (Resource : String) (Next : String) (Retry : List Retrier) (Catch : List Catcher)
  | Fail (Error : String)
  | Succeed
  deriving DecidableEq, Repr

/-- A workflow definition: a start-state name and the states by name, in the
order of the document. -/
structure StateMachine where
  StartAt : String
  States : List (String × State)
  deriving DecidableEq, Repr

/-- The specification of the state of that name, if the definition has one. -/
def StateMachine.state (sm : StateMachine) (name : String) : Option State :=
  sm.States.lookup name

/-- The names of the states the definition defines. -/
def StateMachine.names (sm : StateMachine) : List String :=
  sm.States.map (fun s => s.1)

/-- The failure of a handler: its error kind and its cause. -/
structure HandlerError where
  Error : String
  Cause : String
  deriving DecidableEq, Repr

/-- Modelled from the spec: the error matching of the workflow engine (package
`machine`, not part of the sources): a pattern set matches an error kind when
it holds that kind or the "match all errors" pattern, `States.ALL`. -/
def matchesError (patterns : List String) (kind : String) : Bool :=
  patterns.any (fun p => p == kind || p == "States.ALL")

/-- Modelled from the spec: "walk the catch rules in declaration order; the
first matching rule redirects execution". -/
def findCatcher (rules : List Catcher) (kind : String) : Option Catcher :=
  rules.find? (fun c => matchesError c.ErrorEquals kind)

/-- Modelled from the spec: "walk the retry rules in declaration order; the
first rule whose pattern set matches the error kind is applied"; the rule comes
with its position, which names its attempt counter. -/
def findRetrier (rules : List Retrier) (kind : String) : Option (Nat × Retrier) :=
  rules.enum.find? (fun r => matchesError r.2.ErrorEquals kind)

/-- The payload of a run: the input it carries and what catch rules wrote into
it, by result path, newest first. -/
structure Payload (α : Type) where
  input : α
  results : List (String × HandlerError)

/-- Write the error kind and cause into the payload at a result path. -/
def Payload.write {α : Type} (p : Payload α) (path : String) (e : HandlerError) : Payload α :=
  { p with results := (path, e) :: p.results }

/-- What the payload holds at a result path. -/
def Payload.read {α : Type} (p : Payload α) (path : String) : Option HandlerError :=
  p.results.lookup path

/-- A step handler: given the number of invocations already made in the current
state and the payload, an updated payload or a classified error. -/
abbrev Handler (α : Type) := Nat → Payload α → Except HandlerError (Payload α)

/-- The handlers registered by state name. -/
abbrev TaskHandlers (α : Type) := String → Option (Handler α)

/-- What a run does, in order: a handler invocation, a wait between attempts, a
catch rule redirecting the run. -/
inductive Event where
  | invoke (state : String) (attempt : Nat)
  | wait (seconds : Nat)
  | caught (state : String) (kind : String) (next : String)
  deriving DecidableEq, Repr

/-- How a run ends: success, a `Fail` state with its error tag, an unhandled
failure carrying the original error, a task state with no handler
(`UnboundStateError`), a state the definition does not define, or the budget
of steps exhausted. -/
inductive Outcome where
  | succeeded
  | failed (tag : String)
  | unhandled (err : HandlerError)
  | unbound (state : String)
  | undefined (state : String)
  | unfinished
  deriving DecidableEq, Repr

/-- The execution context: current state name, attempt counters of the retry
rules of the current state (by position, absent meaning zero), invocations made
in the current state, payload, and history. -/
structure Config (α : Type) where
  state : String
  counters : List (Nat × Nat)
  attempt : Nat
  payload : Payload α
  events : List Event

/-- The result of one step of the execution loop. -/
inductive Progress (α : Type) where
  | next (c : Config α)
  | done (o : Outcome) (c : Config α)

/-- Modelled from the spec: the catch routing after a failure (package
`machine`, not part of the sources): the first matching catch rule redirects
the run to its `Next`, "first writing the error kind and cause into the payload
at the rule's designated result field"; with no matching rule the run ends as
an unhandled failure. -/
def catchError {α : Type} (c : Config α) (rules : List Catcher) (e : HandlerError) :
    Progress α :=
  match findCatcher rules e.Error with
  | some rule =>
    Progress.next
      { state := rule.Next, counters := [], attempt := 0,
        payload := c.payload.write rule.ResultPath e,
        events := c.events ++
          [Event.invoke c.state c.attempt, Event.caught c.state e.Error rule.Next] }
  | none =>
    Progress.done (Outcome.unhandled e)
      { c with events := c.events ++ [Event.invoke c.state c.attempt] }

/-- Modelled from the spec: one step of the execution loop (package `machine`,
not part of the sources). A `Succeed` state ends the run with success, a `Fail`
state with failure and its error tag. In a task state the registered handler is
invoked; on success the run advances to `Next`; on failure the first matching
retry rule has its counter incremented and, "if attempts remain within
`MaxAttempts`", the handler is invoked again with the same payload after
`IntervalSeconds`; otherwise the catch rules are walked. -/
def step {α : Type} (sm : StateMachine) (handlers : TaskHandlers α) (c : Config α) :
    Progress α :=
  match sm.state c.state with
  | none => Progress.done (Outcome.undefined c.state) c
  | some State.Succeed => Progress.done Outcome.succeeded c
  | some (State.Fail tag) => Progress.done (Outcome.failed tag) c
  | some (State.TaskFn _ next retry catchers) =>
    match handlers c.state with
    | none => Progress.done (Outcome.unbound c.state) c
    | some h =>
      match h c.attempt c.payload with
      | Except.ok p =>
        Progress.next
          { state := next, counters := [], attempt := 0, payload := p,
            events := c.events ++ [Event.invoke c.state c.attempt] }
      | Except.error e =>
        match findRetrier retry e.Error with
        | none => catchError c catchers e
        | some (i, rule) =>
          let n := (c.counters.lookup i).getD 0 + 1
          if n ≤ rule.MaxAttempts then
            Progress.next
              { state := c.state, counters := (i, n) :: c.counters, attempt := c.attempt + 1,
                payload := c.payload,
                events := c.events ++
                  [Event.invoke c.state c.attempt, Event.wait rule.IntervalSeconds] }
          else catchError c catchers e

/-- Modelled from the spec: the execution loop, bounded by a budget of steps. -/
def run {α : Type} (sm : StateMachine) (handlers : TaskHandlers α) :
    Nat → Config α → Outcome × Config α
  | 0, c => (Outcome.unfinished, c)
  | n + 1, c =>
    match step sm handlers c with
    | Progress.done o c' => (o, c')
    | Progress.next c' => run sm handlers n c'

/-- The execution context at the start of a run in the given state. -/
def Config.start {α : Type} (state : String) (payload : Payload α) (events : List Event) :
    Config α :=
  { state := state, counters := [], attempt := 0, payload := payload, events := events }

/-- Modelled from the spec: `execute(definition, handlers, initialPayload)`,
bounded by a budget of steps. -/
def Execute {α : Type} (sm : StateMachine) (handlers : TaskHandlers α) (budget : Nat)
    (input : α) : Outcome × Config α :=
  run sm handlers budget (Config.start sm.StartAt ⟨input, []⟩ [])

/-- The states a state can lead to: for a task its `Next` and the `Next` of each
catch rule, in order; none for `Fail` and `Succeed`. -/
def State.successors : State → List String
  | State.TaskFn _ next _ catchers => next :: catchers.map (fun c => c.Next)
  | State.Fail _ => []
  | State.Succeed => []

/-- The states the state of that name can lead to. -/
def StateMachine.successors (sm : StateMachine) (name : String) : List String :=
  match sm.state name with
  | some s => s.successors
  | none => []

/-- The edge relation of the definition: the second state is a `Next` or a catch
`Next` of the first. -/
def StateMachine.Edge (sm : StateMachine) (s t : String) : Prop :=
  t ∈ sm.successors s

end machine

namespace deployer

/-- The resource every task state of the deployer is bound to. -/
def resource : String :=
  "arn:aws:lambda:\x7b\x7baws_region\x7d\x7d:\x7b\x7baws_account\x7d\x7d:function:" ++
    "\x7b\x7blambda_name\x7d\x7d"

/-- The function `StateMachine`: the workflow definition of the deployer. -/
def StateMachine : machine.StateMachine :=
  { StartAt := "Validate"
    States :=
      [("Validate", machine.State.TaskFn resource "Lock" []
          [⟨["States.ALL"], "$.error", "FailureClean"⟩]),
        ("Lock", machine.State.TaskFn resource "ValidateResources" []
          [⟨["LockExistsError"], "$.error", "FailureClean"⟩,
            ⟨["States.ALL"], "$.error", "ReleaseLockFailure"⟩]),
        ("ValidateResources", machine.State.TaskFn resource "Deploy" []
          [⟨["States.ALL"], "$.error", "ReleaseLockFailure"⟩]),
        ("Deploy", machine.State.TaskFn resource "Success" []
          [⟨["DeploySFNError"], "$.error", "ReleaseLockFailure"⟩,
            ⟨["States.ALL"], "$.error", "FailureDirty"⟩]),
        ("ReleaseLockFailure", machine.State.TaskFn resource "FailureClean"
          [⟨["States.ALL"], 3, 30⟩]
          [⟨["States.ALL"], "$.error", "FailureDirty"⟩]),
        ("FailureClean", machine.State.Fail "NotifyError"),
        ("FailureDirty", machine.State.Fail "AlertError"),
        ("Success", machine.State.Succeed)] }

/-- The position of each state of the deployer in an order along which every
edge of the definition goes forward. -/
def rank (name : String) : Nat :=
  if name = "Validate" then 0
  else if name = "Lock" then 1
  else if name = "ValidateResources" then 2
  else if name = "Deploy" then 3
  else if name = "ReleaseLockFailure" then 4
  else 5

/-- The terminal states of the deployer. -/
def terminals : List String :=
  ["Success", "FailureClean", "FailureDirty"]

end deployer

namespace machine

/-- The execution context a step leaves. -/
def Progress.config {α : Type} : Progress α → Config α
  | Progress.next c => c
  | Progress.done _ c => c

end machine

namespace machine

/-- The edges of the definition, state by state in the order of the document. -/
def StateMachine.edges (sm : StateMachine) : List (String × String) :=
  sm.States.flatMap (fun s => s.2.successors.map (fun t => (s.1, t)))

/-- The catch list of a task state ends with a rule that holds `States.ALL`;
true of `Fail` and `Succeed`, which have no catch list. -/
def State.catchesAll : State → Bool
  | State.TaskFn _ _ _ catchers =>
    match catchers.getLast? with
    | some c => c.ErrorEquals.contains "States.ALL"
    | none => false
  | State.Fail _ => true
  | State.Succeed => true

/-- The state is a `Fail` or a `Succeed` state. -/
def State.isTerminal : State → Bool
  | State.TaskFn _ _ _ _ => false
  | State.Fail _ => true
  | State.Succeed => true

end machine

/-- Go `int64` arithmetic: the value an integer wraps to in 64 bits, two's
complement. -/
def int64 (x : Int) : Int :=
  (x + 2 ^ 63) % 2 ^ 64 - 2 ^ 63

namespace Release

/-- Method `WipeControlledValues`: wipe the values that are controlled by the
deployer. -/
def WipeControlledValues (r : Release) : Release :=
  { r with UUID := none, StartedAt := none, Success := none }

/-- Method `SetDefaults`: fill the unset values from the region and account
where the deployer runs and from the default bucket prefix. `now` is
`time.Now()` and `TimeUUID` is `to.TimeUUID` (not part of the sources), which
returns a pointer to a fresh identifier starting with its argument. -/
def SetDefaults (r : Release) (now : Time) (TimeUUID : String → String)
    (region account : Option String) ( bucket_prefix : String) : Release :=
  let r1 := if is.EmptyStr r.UUID then { r with UUID := some (TimeUUID "release-") } else r
  let r2 := if r1.StartedAt = none then { r1 with StartedAt := some now } else r1
  let r3 := if is.EmptyStr r2.AwsRegion then { r2 with AwsRegion := region } else r2
  let r4 := if is.EmptyStr r3.AwsAccountID then { r3 with AwsAccountID := account } else r3
  let r5 :=
    match is.EmptyStr r4.Bucket, account with
    | true, some a => { r4 with Bucket := some ( bucket_prefix ++ a) }
    | _, _ => r4
  if r5.Timeout = none then { r5 with Timeout := some 600 } else r5

/-- Method `TimedOut`: stamp the start time if absent, and report a timeout once
`now` is after the start time plus the timeout, a number of seconds multiplied
by `time.Second` in 64-bit arithmetic. Returns the error and the release as the
call leaves it. -/
def TimedOut (r : Release) (now : Time) : Option (Option Err × Release) :=
  let r1 := if r.StartedAt = none then { r with StartedAt := some now } else r
  match r1.StartedAt, r1.Timeout with
  | some started, some t =>
    let timeout := started + int64 (time.Second * t)
    if now > timeout then some (some (Err.Errorf "Timeout: Halting Release"), r1)
    else some (none, r1)
  | _, _ => none

end Release

namespace s3

/-- Modelled from the spec: `s3.GetObject` (not part of the sources): the read
of one object, returning the last-modified time of the output and the body,
both as pointers. -/
def GetObject (s3c : aws.S3API) (bucket : Option String) (path : String) :
    Except Err (Option Time × Option String) × aws.S3API :=
  match Get s3c bucket path with
  | (Except.error e, s) => (Except.error e, s)
  | (Except.ok o, s) => (Except.ok (some o.lastModified, some o.body), s)

/-- Modelled from the spec: `s3.GetStr` (not part of the sources): the read of
one object, returning a pointer to its body as a string. -/
def GetStr (s3c : aws.S3API) (bucket : Option String) (path : String) :
    Except Err (Option String) × aws.S3API :=
  match Get s3c bucket path with
  | (Except.error e, s) => (Except.error e, s)
  | (Except.ok o, s) => (Except.ok (some o.body), s)

/-- Modelled from the spec: `s3.PutStr` (not part of the sources): the write of
a string as the body of one object. -/
def PutStr (s3c : aws.S3API) (bucket : Option String) (path : String) (body : String) :
    Option Err × aws.S3API :=
  Put s3c bucket path body

end s3

namespace Release

/-- Method `haltFlag`: the message of the halt flag, when the object at
`HaltPath` can be read and was written within the last 5 minutes and before 2
minutes in the future; nil on any read error or outside that window. -/
def haltFlag (r : Release) (now : Time) (s3c : aws.S3API) :
    Option (Option String × aws.S3API) :=
  match r.HaltPath with
  | none => none
  | some path =>
    match s3.GetObject s3c r.Bucket path with
    | (Except.error _, s) => some (none, s)
    | (Except.ok (lastModified, body), s) =>
      if !is.WithinTimeFrame now lastModified (5 * time.Minute) (2 * time.Minute) then
        some (none, s)
      else
        match body with
        | none => some (some "", s)
        | some b => some (some b, s)

/-- Method `IsHalt`: the timeout error if `TimedOut` reports one; otherwise an
error if the halt flag is found. The flag's message (or `Halt File Found` when
it is empty) is handed to `fmt.Errorf` as the format string, with no argument:
`Sprintf` is the text `fmt` makes of such a format, which is the format itself
only when it holds no `%`. Returns the error, the release as the call leaves
it, and the store. -/
def IsHalt (r : Release) (Sprintf : String → String) (now : Time) (s3c : aws.S3API) :
    Option (Option Err × Release × aws.S3API) :=
  match r.TimedOut now with
  | none => none
  | some (some err, r1) => some (some err, r1, s3c)
  | some (none, r1) =>
    match r1.haltFlag now s3c with
    | none => none
    | some (none, s) => some (none, r1, s)
    | some (some message, s) =>
      if message = "" then some (some (Err.Errorf (Sprintf "Halt File Found")), r1, s)
      else some (some (Err.Errorf (Sprintf message)), r1, s)

/-- The release has timed out: `now` is strictly later than its start time, or
than `now` itself when the start time is unset, plus its timeout in seconds. -/
def TimeoutElapsed (r : Release) (now : Time) : Prop :=
  match r.Timeout with
  | some t => now > r.StartedAt.getD now + 1000000000 * t
  | none => False

/-- The release with its start time stamped with `now` when it was unset. -/
def stamped (r : Release) (now : Time) : Release :=
  match r.StartedAt with
  | none => { r with StartedAt := some now }
  | some _ => r

/-- Method `Halt`: write the halt flag with its message. -/
def Halt (r : Release) (s3c : aws.S3API) (message : String) : Option (Option Err × aws.S3API) :=
  match r.HaltPath with
  | none => none
  | some path => some (s3.PutStr s3c r.Bucket path message)

/-- Method `WriteLog`: overwrite the log object with the given text. -/
def WriteLog (r : Release) (s3c : aws.S3API) (log : String) : Option (Option Err × aws.S3API) :=
  match r.LogPath with
  | none => none
  | some path => some (s3.PutStr s3c r.Bucket path log)

/-- Method `AppendLog`: read the log object, taking a missing one as the empty
log and returning any other read error; then overwrite it with its content, a
newline and the new line. -/
def AppendLog (r : Release) (s3c : aws.S3API) (log : String) :
    Option (Option Err × aws.S3API) :=
  match r.LogPath with
  | none => none
  | some path =>
    match s3.GetStr s3c r.Bucket path with
    | (Except.error (Err.NotFoundError _), s) =>
      some (s3.PutStr s r.Bucket path ("" ++ "\n" ++ log))
    | (Except.error err, s) => some (some err, s)
    | (Except.ok logFile, s) =>
      some (s3.PutStr s r.Bucket path (logFile.getD "" ++ "\n" ++ log))

/-- The field, when set, holds no `/` character. -/
def slashFree (field : Option String) : Prop :=
  ∀ v, field = some v → '/' ∉ v.data

/-- The account id, project name, config name and release id of the release
hold no `/` character. -/
def SlashFree (r : Release) : Prop :=
  slashFree r.AwsAccountID ∧ slashFree r.ProjectName ∧ slashFree r.ConfigName ∧
    slashFree r.ReleaseID

end Release

namespace Release

/-- The halt flag is active: the object at the path in the bucket of the release
can be read, and its last-modified time is not older than 5 minutes before
`now` and not later than 2 minutes after it. -/
def HaltActive (r : Release) (now : Time) (s3c : aws.S3API) (path : String) : Prop :=
  ∃ bucket o, r.Bucket = some bucket ∧ s3c.find bucket path = some (s3.Entry.object o) ∧
    now - 5 * time.Minute ≤ o.lastModified ∧ o.lastModified ≤ now + 2 * time.Minute

end Release

namespace aws

/-- The object store `s'` differs from `s3c` at most at one key: every other key
answers a read as before, and the failing writes and deletes and the clock are
the same. The record of calls is left out. -/
def S3API.SameExceptAt (s' s3c : S3API) (bucket path : String) : Prop :=
  (∀ b p, (b, p) ≠ (bucket, path) → s'.find b p = s3c.find b p) ∧
    s'.putErr = s3c.putErr ∧ s'.deleteErr = s3c.deleteErr ∧ s'.clock = s3c.clock

end aws

/-- Modelled from the spec: the contract of the keyed lock service behind a
`Locker` (its implementations are not part of the sources; the spec gives it
the "same grabbed/not-grabbed/ambiguous trichotomy" as the object-store lock,
where not grabbed means "no write"): a grab that reports not grabbed leaves the
keyed store as it was. -/
def Locker.RefusesCleanly {σ : Type} (locker : Locker σ) : Prop :=
  ∀ st ns lockPath uuid reason,
    (locker.GrabLock st ns lockPath uuid reason).1.1 = false →
      (locker.GrabLock st ns lockPath uuid reason).2 = st

namespace Sample

/-- A lock codec for concrete evaluations: the body of a lock object is the
holder id itself. -/
def codec : s3.LockCodec :=
  ⟨fun l => l.UUID, fun s => some ⟨s⟩⟩

/-- An object store with no object and no failing operation. -/
def emptyStore : aws.S3API :=
  ⟨[], [], [], 0, []⟩

/-- An object store holding, in bucket `bucket` at `path`, a lock record of holder `NOT_UUID`. -/
def lockedStore : aws.S3API :=
  ⟨[(("bucket", "path"), s3.Entry.object ⟨"NOT_UUID", 0⟩)], [], [], 0, []⟩

/-- An object store with no object, in which the write of the lock fails. -/
def putFailStore : aws.S3API :=
  ⟨[], [(("bucket", "path"), "ERRRR")], [], 0, []⟩

/-- An object store in which the read of the lock fails. -/
def getFailStore : aws.S3API :=
  ⟨[(("bucket", "path"), s3.Entry.unreadable "ERRRR")], [], [], 0, []⟩

/-- An object store holding a user-lock object. -/
def userLockedStore : aws.S3API :=
  ⟨[(("bucket", "path"), s3.Entry.object ⟨"user: test, lock_reason: testing", 0⟩)], [], [], 0, []⟩

/-- A release with every field set. -/
def release : Release :=
  { AwsAccountID := some "00000000", AwsRegion := some "us-east-1", ReleaseSHA256 := "sha",
    UUID := some "UUID", ReleaseID := some "release-1", ProjectName := some "project",
    ConfigName := some "development", Bucket := some "bucket", CreatedAt := some 0,
    StartedAt := some 0, Timeout := some 600, Metadata := [], Error := none, Success := none }

/-- A keyed lock service over a list of `(table, key, holder)` records: a grab
succeeds when the key is free or already held by the requester, and then
records the requester; otherwise it reports not grabbed and writes nothing. -/
def keyedLocker : Locker (List (String × String × String)) :=
  { GrabLock := fun st ns lockPath uuid _ =>
      match st.find? (fun e => e.1 == ns && e.2.1 == lockPath) with
      | none => ((true, none), (ns, lockPath, uuid) :: st)
      | some e => if e.2.2 = uuid then ((true, none), st) else ((false, none), st)
    ReleaseLock := fun st ns lockPath uuid =>
      (none, st.filter (fun e => !(e.1 == ns && e.2.1 == lockPath && e.2.2 == uuid))) }

/-- The keyed store in which the root lock of `release` is held by another release. -/
def rootHeld : LockerState (List (String × String × String)) :=
  ⟨[("locks", "00000000/project/development/lock", "OTHER")], []⟩

/-- The keyed store with no lock held. -/
def noLocks : LockerState (List (String × String × String)) :=
  ⟨[], []⟩

/-- An object store holding, in bucket `bucket` at `path`, a lock record of holder `UUID`. -/
def ownStore : aws.S3API :=
  ⟨[(("bucket", "path"), s3.Entry.object ⟨"UUID", 0⟩)], [], [], 0, []⟩

/-- An object store holding a user-lock object at the user-lock path of `release`. -/
def operatorStore : aws.S3API :=
  ⟨[(("bucket", "00000000/project/development/user-lock"),
      s3.Entry.object ⟨"user: test, lock_reason: testing", 0⟩)], [], [], 0, []⟩

/-- The release `release` with its region and its project name left unset. -/
def noRegion : Release :=
  { release with AwsRegion := none, ProjectName := some "" }

/-- A destination that is a pointer, deserializes any body as itself and
hashes it to itself. -/
def dest : Destination String :=
  ⟨true, fun body => some body, fun v => v⟩

/-- An object store holding the uploaded release of `release`, whose hash is `sha`. -/
def uploadedStore : aws.S3API :=
  ⟨[(("bucket", "00000000/project/development/release-1/release"),
      s3.Entry.object ⟨"sha", 0⟩)], [], [], 0, []⟩

/-- A handler that fails on every invocation with the given error. -/
def failing (e : machine.HandlerError) : machine.Handler Unit :=
  fun _ _ => Except.error e

/-- Handlers of the deployer in which the one of the given state fails on every
invocation with the given error, and every other one returns its payload. -/
def handlersFailing (state : String) (e : machine.HandlerError) : machine.TaskHandlers Unit :=
  fun name => if name = state then some (failing e) else some (fun _ p => Except.ok p)

/-- The release `release` started at time 0 with a timeout of 18446744074
seconds, whose product with `time.Second` exceeds 64 bits. -/
def longTimeout : Release :=
  { release with StartedAt := some 0, Timeout := some 18446744074 }

/-- An object store holding a halt flag for `release`, written at time 0. -/
def haltedStore : aws.S3API :=
  ⟨[(("bucket", "00000000/project/development/halt"), s3.Entry.object ⟨"stop", 0⟩)],
    [], [], 0, []⟩

/-- An object store holding a log of `release` with one line. -/
def loggedStore : aws.S3API :=
  ⟨[(("bucket", "00000000/project/development/release-1/log"),
      s3.Entry.object ⟨"\nfirst", 0⟩)], [], [], 0, []⟩

/-- The release `release` under another release id. -/
def nextRelease : Release :=
  { release with ReleaseID := some "release-2" }

/-- What `fmt` makes of a format that holds no `%` and is given no argument: the
format itself. -/
def plainFormat : String → String :=
  fun format => format

/-- The error `GrabLocks` returns for `release` when its root lock is held by
another release in the table `locks`. -/
def contendedError : Err :=
  Err.LockExistsError
    ("Lock Already Exists at locks:00000000/project/development/lock" ++
      "\nRun the following to clear it: aws dynamodb delete-item --table-name locks" ++
      " --key=\x27\x7b\"key\": \x7b\"S\": \"00000000/project/development/lock\" \x7d\x7d\x27")

/-- The object store `uploadedStore` after `GrabLocks` of `release` was refused
the root lock: the release lock has been written, the uploaded release is as it
was, and three requests were issued. -/
def contendedStore : aws.S3API :=
  ⟨[(("bucket", "00000000/project/development/release-1/lock"), s3.Entry.object ⟨"UUID", 0⟩),
      (("bucket", "00000000/project/development/release-1/release"),
        s3.Entry.object ⟨"sha", 0⟩)],
    [], [], 0,
    [s3.Call.get (some "bucket") "00000000/project/development/user-lock",
      s3.Call.get (some "bucket") "00000000/project/development/release-1/lock",
      s3.Call.put (some "bucket") "00000000/project/development/release-1/lock" "UUID"]⟩

/-- The keyed store `rootHeld` after the locker refused the root lock to `release`. -/
def contendedLocks : LockerState (List (String × String × String)) :=
  ⟨[("locks", "00000000/project/development/lock", "OTHER")],
    [LockerCall.GrabLock "locks" "00000000/project/development/lock" "UUID" ""]⟩

end Sample

/-! ## Theorems -/

namespace s3

theorem find_put_entries (entries : List ((String × String) × Entry)) (k : String × String)
    (e : Entry) :
    List.lookup k ((k, e) :: entries.filter (fun x => !(x.1 == k))) = some e := by
  simp [List.lookup]

theorem lookup_filter_ne (entries : List ((String × String) × Entry)) (k : String × String) :
    List.lookup k (entries.filter (fun x => !(x.1 == k))) = none := by
  induction entries with
  | nil => simp
  | cons x xs ih =>
    rw [List.filter_cons]
    by_cases h : x.1 = k
    · simp [h, ih]
    · have h2 : (k == x.1) = false := by
        simp only [beq_eq_false_iff_ne, ne_eq]
        exact fun e => h e.symm
      have h3 : (!(x.1 == k)) = true := by simp [h]
      rw [if_pos h3]
      obtain ⟨a, b⟩ := x
      simp only [List.lookup, h2]
      exact ih

theorem Get_snd (s3c : aws.S3API) (bucket : Option String) (path : String) :
    (Get s3c bucket path).2 = s3c.record (Call.get bucket path) := by
  unfold Get
  cases bucket with
  | none => rfl
  | some b =>
    simp only
    cases h : s3c.find b path with
    | none => rfl
    | some e => cases e <;> rfl

theorem GetStruct_snd {α : Type} (Unmarshal : String → Option α) (s3c : aws.S3API)
    (bucket : Option String) (path : String) :
    (GetStruct Unmarshal s3c bucket path).2 = s3c.record (Call.get bucket path) := by
  have h := Get_snd s3c bucket path
  unfold GetStruct
  rcases hg : Get s3c bucket path with ⟨res, s⟩
  rw [hg] at h
  simp only at h
  subst h
  cases res with
  | error e => rfl
  | ok o =>
    simp only
    cases Unmarshal o.body <;> rfl

theorem GrabLock_absent (codec : LockCodec) (s3c : aws.S3API) (bucket path id : String)
    (h : s3c.find bucket path = none) :
    GrabLock codec s3c (some bucket) path id =
      ((true, (Put (s3c.record (Call.get (some bucket) path)) (some bucket) path
        (codec.Marshal ⟨id⟩)).1),
        (Put (s3c.record (Call.get (some bucket) path)) (some bucket) path
          (codec.Marshal ⟨id⟩)).2) := by
  simp [GrabLock, GetStruct, Get, h]

theorem GrabLock_same (codec : LockCodec) (s3c : aws.S3API) (bucket path id : String)
    (o : Object) (h : s3c.find bucket path = some (Entry.object o))
    (hd : codec.Unmarshal o.body = some ⟨id⟩) :
    GrabLock codec s3c (some bucket) path id =
      ((true, (Put (s3c.record (Call.get (some bucket) path)) (some bucket) path
        (codec.Marshal ⟨id⟩)).1),
        (Put (s3c.record (Call.get (some bucket) path)) (some bucket) path
          (codec.Marshal ⟨id⟩)).2) := by
  simp [GrabLock, GetStruct, Get, h, hd]

theorem GrabLock_other (codec : LockCodec) (s3c : aws.S3API) (bucket path id : String)
    (o : Object) (l : Lock) (h : s3c.find bucket path = some (Entry.object o))
    (hd : codec.Unmarshal o.body = some l) (hne : l.UUID ≠ id) :
    GrabLock codec s3c (some bucket) path id =
      ((false, none), s3c.record (Call.get (some bucket) path)) := by
  simp [GrabLock, GetStruct, Get, h, hd, hne]

theorem GrabLock_unreadable (codec : LockCodec) (s3c : aws.S3API) (bucket path id msg : String)
    (h : s3c.find bucket path = some (Entry.unreadable msg)) :
    GrabLock codec s3c (some bucket) path id =
      ((false, some (Err.Errorf msg)), s3c.record (Call.get (some bucket) path)) := by
  simp [GrabLock, GetStruct, Get, h]

theorem GrabLock_undecodable (codec : LockCodec) (s3c : aws.S3API) (bucket path id : String)
    (o : Object) (h : s3c.find bucket path = some (Entry.object o))
    (hd : codec.Unmarshal o.body = none) :
    GrabLock codec s3c (some bucket) path id =
      ((false, some (Err.Errorf "unexpected end of JSON input")),
        s3c.record (Call.get (some bucket) path)) := by
  simp [GrabLock, GetStruct, Get, h, hd]

theorem GrabLock_nil_bucket (codec : LockCodec) (s3c : aws.S3API) (path id : String) :
    GrabLock codec s3c none path id =
      ((false, some (Err.Errorf "InvalidParameter: missing required field Bucket")),
        s3c.record (Call.get none path)) := by
  simp [GrabLock, GetStruct, Get]

theorem GrabLock_not_grabbed (codec : LockCodec) (s3c : aws.S3API) (bucket : Option String)
    (path id : String) (h : (GrabLock codec s3c bucket path id).1.1 = false) :
    (GrabLock codec s3c bucket path id).2 = s3c.record (Call.get bucket path) := by
  have hs := GetStruct_snd codec.Unmarshal s3c bucket path
  unfold GrabLock at h ⊢
  rcases hg : GetStruct codec.Unmarshal s3c bucket path with ⟨res, s⟩
  rw [hg] at h hs
  simp only at hs
  subst hs
  cases res with
  | error e => cases e <;> simp_all
  | ok l =>
    simp only at h ⊢
    split at h
    · simp at h
    · next hne => simp [hne]

theorem holder_eq_some (codec : LockCodec) (s3c : aws.S3API) (bucket path u : String)
    (h : holder codec s3c bucket path = some u) :
    ∃ o, s3c.find bucket path = some (Entry.object o) ∧ codec.Unmarshal o.body = some ⟨u⟩ := by
  unfold holder at h
  split at h
  · next o ho =>
    refine ⟨o, ho, ?_⟩
    cases hd : codec.Unmarshal o.body with
    | none => simp [hd] at h
    | some l =>
      obtain ⟨v⟩ := l
      simp [hd] at h
      simp [h]
  · simp at h

theorem Put_ok (s : aws.S3API) (bucket path body : String)
    (hw : s.putErr.lookup (bucket, path) = none) :
    Put s (some bucket) path body =
      (none, ⟨((bucket, path), Entry.object ⟨body, s.clock⟩) ::
          s.entries.filter (fun e => !(e.1 == (bucket, path))),
        s.putErr, s.deleteErr, s.clock, s.calls ++ [Call.put (some bucket) path body]⟩) := by
  simp [Put, hw, aws.S3API.record]

theorem holder_Put (codec : LockCodec) (hc : codec.Lawful) (s : aws.S3API)
    (bucket path id : String) (hw : s.putErr.lookup (bucket, path) = none) :
    holder codec (Put s (some bucket) path (codec.Marshal ⟨id⟩)).2 bucket path = some id := by
  rw [Put_ok s bucket path _ hw]
  simp [holder, aws.S3API.find, List.lookup, hc ⟨id⟩]

/-- Claim C1. In a store where reads and writes of the lock key do not fail,
`GrabLock` reports grabbed = true with no error exactly when the key is absent
or holds a record of the requester, and then the store holds a record of the
requester at the key; when the key holds a record of another holder it reports
grabbed = false with no error and leaves the store as it was, only the read
having been issued. -/
theorem GrabLock_contract (codec : LockCodec) (hc : codec.Lawful) (s3c : aws.S3API)
    (bucket path id : String)
    (hr : ReadsOk codec s3c bucket path) (hw : WritesOk s3c bucket path) :
    ((GrabLock codec s3c (some bucket) path id).1 = (true, none) ↔
      (s3c.find bucket path = none ∨ holder codec s3c bucket path = some id)) ∧
    ((GrabLock codec s3c (some bucket) path id).1 = (true, none) →
      holder codec (GrabLock codec s3c (some bucket) path id).2 bucket path = some id) ∧
    (∀ other, holder codec s3c bucket path = some other → other ≠ id →
      (GrabLock codec s3c (some bucket) path id).1 = (false, none) ∧
      (GrabLock codec s3c (some bucket) path id).2 = s3c.record (Call.get (some bucket) path)) := by
  unfold WritesOk at hw
  have hw2 : (s3c.record (Call.get (some bucket) path)).putErr.lookup (bucket, path) = none := hw
  have hok := Put_ok (s3c.record (Call.get (some bucket) path)) bucket path
    (codec.Marshal ⟨id⟩) hw2
  have hh := holder_Put codec hc (s3c.record (Call.get (some bucket) path)) bucket path id hw2
  rcases hr with hr | hr
  · have hn : holder codec s3c bucket path = none := by simp [holder, hr]
    have hg := GrabLock_absent codec s3c bucket path id hr
    refine ⟨?_, ?_, ?_⟩
    · rw [hg, hok]
      simp [hr]
    · intro _
      rw [hg]
      exact hh
    · intro other ho
      simp [hn] at ho
  · obtain ⟨u, hu⟩ := Option.isSome_iff_exists.mp hr
    obtain ⟨o, ho, hd⟩ := holder_eq_some codec s3c bucket path u hu
    by_cases hid : u = id
    · subst hid
      have hg := GrabLock_same codec s3c bucket path u o ho hd
      refine ⟨?_, ?_, ?_⟩
      · rw [hg, hok]
        simp [hu]
      · intro _
        rw [hg]
        exact hh
      · intro other hother hne
        rw [hu] at hother
        exact absurd (Option.some.inj hother).symm hne
    · have hg := GrabLock_other codec s3c bucket path id o ⟨u⟩ ho hd hid
      refine ⟨?_, ?_, ?_⟩
      · rw [hg]
        simp [ho, hu, hid]
      · intro h
        rw [hg] at h
        simp at h
      · intro other _ _
        rw [hg]
        exact ⟨rfl, rfl⟩

/-- Witness of claim C1: on the empty store the lock is grabbed with no error. -/
theorem GrabLock_contract_witness :
    Sample.codec.Lawful ∧ ReadsOk Sample.codec Sample.emptyStore "bucket" "path" ∧
      WritesOk Sample.emptyStore "bucket" "path" ∧
      (GrabLock Sample.codec Sample.emptyStore (some "bucket") "path" "UUID").1 = (true, none) :=
  ⟨fun _ => rfl, Or.inl rfl, rfl,
    (GrabLock_contract Sample.codec (fun _ => rfl) Sample.emptyStore "bucket" "path" "UUID"
      (Or.inl rfl) rfl).1.mpr (Or.inl rfl)⟩

/-- Claim C2. When the read finds no lock object and the write that follows
fails, `GrabLock` returns grabbed = true with the error of the write; when the
read itself fails with an error other than not-found, it returns
grabbed = false with that error and issues no request but the read. -/
theorem GrabLock_failure (codec : LockCodec) (s3c : aws.S3API) (bucket : Option String)
    (path id : String) :
    (∀ msg e, (GetStruct codec.Unmarshal s3c bucket path).1 = Except.error (Err.NotFoundError msg) →
      (Put (GetStruct codec.Unmarshal s3c bucket path).2 bucket path (codec.Marshal ⟨id⟩)).1
        = some e →
      (GrabLock codec s3c bucket path id).1 = (true, some e)) ∧
    (∀ e, (GetStruct codec.Unmarshal s3c bucket path).1 = Except.error e →
      e.isNotFoundError = false →
      (GrabLock codec s3c bucket path id).1 = (false, some e) ∧
      (GrabLock codec s3c bucket path id).2 = s3c.record (Call.get bucket path) ∧
      (GrabLock codec s3c bucket path id).2.calls.filter Call.isWrite
        = s3c.calls.filter Call.isWrite) := by
  have hs := GetStruct_snd codec.Unmarshal s3c bucket path
  constructor
  · intro msg e h1 h2
    unfold GrabLock
    rcases hg : GetStruct codec.Unmarshal s3c bucket path with ⟨res, s⟩
    rw [hg] at h1 h2
    simp only at h1 h2
    subst h1
    simp only
    rw [h2]
  · intro e h1 h2
    have hg : GrabLock codec s3c bucket path id = ((false, some e), s3c.record (Call.get bucket path)) := by
      unfold GrabLock
      rcases hg : GetStruct codec.Unmarshal s3c bucket path with ⟨res, s⟩
      rw [hg] at h1 hs
      simp only at h1 hs
      subst h1 hs
      cases e <;> simp_all [Err.isNotFoundError]
    rw [hg]
    refine ⟨rfl, rfl, ?_⟩
    simp [aws.S3API.record, List.filter_append, Call.isWrite]

/-- Witness of claim C2: a failing write after an empty read, and a failing read. -/
theorem GrabLock_failure_witness :
    (GrabLock Sample.codec Sample.putFailStore (some "bucket") "path" "UUID").1
      = (true, some (Err.Errorf "ERRRR")) ∧
    (GrabLock Sample.codec Sample.getFailStore (some "bucket") "path" "UUID").1
      = (false, some (Err.Errorf "ERRRR")) :=
  ⟨(GrabLock_failure Sample.codec Sample.putFailStore (some "bucket") "path" "UUID").1
      "S3 object not found: bucket/path" (Err.Errorf "ERRRR") rfl rfl,
    ((GrabLock_failure Sample.codec Sample.getFailStore (some "bucket") "path" "UUID").2
      (Err.Errorf "ERRRR") rfl rfl).1⟩

end s3

namespace Release

/-- Claim C3. Whatever the lock operation reports, `grabS3Lock` and
`grabGenericLock` return nil exactly when it reports grabbed with no error, a
`LockError` exactly when it reports grabbed with an error, and a
`LockExistsError` exactly when it reports not grabbed; when it reports not
grabbed with no error, the message ends with the removal command for the bucket
(or table) and lock path that were probed. -/
theorem grabLock_classification {σ : Type} (r : Release) (uuid : String)
    (hu : r.UUID = some uuid) (codec : s3.LockCodec) (s3c : aws.S3API) (locker : Locker σ)
    (ls : LockerState σ) (lockTableName lockPath : String) :
    (((r.grabS3Lock codec s3c lockPath).map Prod.fst = some none ↔
        (s3.GrabLock codec s3c r.Bucket lockPath uuid).1 = (true, none)) ∧
      ((∃ e, (r.grabS3Lock codec s3c lockPath).map Prod.fst = some (some e) ∧
          e.isLockError = true) ↔
        ((s3.GrabLock codec s3c r.Bucket lockPath uuid).1.1 = true ∧
          (s3.GrabLock codec s3c r.Bucket lockPath uuid).1.2 ≠ none)) ∧
      ((∃ e, (r.grabS3Lock codec s3c lockPath).map Prod.fst = some (some e) ∧
          e.isLockExistsError = true) ↔
        (s3.GrabLock codec s3c r.Bucket lockPath uuid).1.1 = false) ∧
      ((s3.GrabLock codec s3c r.Bucket lockPath uuid).1 = (false, none) →
        ∃ bucket, r.Bucket = some bucket ∧
          (s3.GrabLock codec s3c r.Bucket lockPath uuid).2
            = s3c.record (s3.Call.get (some bucket) lockPath) ∧
          (r.grabS3Lock codec s3c lockPath).map Prod.fst =
            some (some (Err.LockExistsError
              ("S3 Lock Already Exists at " ++ bucket ++ ":" ++ lockPath ++
                "\nRun the following to clear it: aws s3 rm s3://" ++ bucket ++ "/" ++
                lockPath))))) ∧
    (((r.grabGenericLock locker ls lockTableName lockPath).map Prod.fst = some none ↔
        (locker.GrabLock ls.store lockTableName lockPath uuid "").1 = (true, none)) ∧
      ((∃ e, (r.grabGenericLock locker ls lockTableName lockPath).map Prod.fst = some (some e) ∧
          e.isLockError = true) ↔
        ((locker.GrabLock ls.store lockTableName lockPath uuid "").1.1 = true ∧
          (locker.GrabLock ls.store lockTableName lockPath uuid "").1.2 ≠ none)) ∧
      ((∃ e, (r.grabGenericLock locker ls lockTableName lockPath).map Prod.fst = some (some e) ∧
          e.isLockExistsError = true) ↔
        (locker.GrabLock ls.store lockTableName lockPath uuid "").1.1 = false) ∧
      ((locker.GrabLock ls.store lockTableName lockPath uuid "").1 = (false, none) →
        (r.grabGenericLock locker ls lockTableName lockPath).map Prod.fst =
          some (some (Err.LockExistsError
            ("Lock Already Exists at " ++ lockTableName ++ ":" ++ lockPath ++
              "\nRun the following to clear it: aws dynamodb delete-item --table-name " ++
              lockTableName ++ " --key=\x27\x7b\"key\": \x7b\"S\": \"" ++ lockPath ++
              "\" \x7d\x7d\x27"))))) := by
  constructor
  · rcases hg : s3.GrabLock codec s3c r.Bucket lockPath uuid with ⟨⟨g, e⟩, s⟩
    cases hb : r.Bucket with
    | none =>
      rw [hb, s3.GrabLock_nil_bucket] at hg
      simp only [Prod.mk.injEq] at hg
      obtain ⟨⟨hg1, hg2⟩, hg3⟩ := hg
      subst hg1 hg2 hg3
      simp [grabS3Lock, hu, hb, s3.GrabLock_nil_bucket, Err.isLockError, Err.isLockExistsError]
    | some bucket =>
      rw [hb] at hg
      have hs := s3.GrabLock_not_grabbed codec s3c (some bucket) lockPath uuid
      rw [hg] at hs
      cases g <;> cases e <;>
        simp [grabS3Lock, hu, hb, hg, Err.isLockError, Err.isLockExistsError]
      exact hs rfl
  · rcases hg : locker.GrabLock ls.store lockTableName lockPath uuid "" with ⟨⟨g, e⟩, st⟩
    cases g <;> cases e <;>
      simp [grabGenericLock, Locker.grab, hu, hg, Err.isLockError, Err.isLockExistsError]

/-- Witness of claim C3: with the lock free, both operations return nil. -/
theorem grabLock_classification_witness :
    Sample.release.UUID = some "UUID" ∧
    (Sample.release.grabS3Lock Sample.codec Sample.emptyStore "path").map Prod.fst = some none ∧
    (Sample.release.grabGenericLock Sample.keyedLocker Sample.noLocks "locks" "path").map Prod.fst
      = some none :=
  ⟨rfl,
    (grabLock_classification Sample.release "UUID" rfl Sample.codec Sample.emptyStore
      Sample.keyedLocker Sample.noLocks "locks" "path").1.1.mpr rfl,
    (grabLock_classification Sample.release "UUID" rfl Sample.codec Sample.emptyStore
      Sample.keyedLocker Sample.noLocks "locks" "path").2.1.mpr rfl⟩

end Release

namespace s3

theorem ReleaseLock_absent (codec : LockCodec) (s3c : aws.S3API) (bucket path id : String)
    (h : s3c.find bucket path = none) :
    ReleaseLock codec s3c (some bucket) path id
      = (none, s3c.record (Call.get (some bucket) path)) := by
  simp [ReleaseLock, GetStruct, Get, h]

theorem ReleaseLock_same (codec : LockCodec) (s3c : aws.S3API) (bucket path id : String)
    (o : Object) (h : s3c.find bucket path = some (Entry.object o))
    (hd : codec.Unmarshal o.body = some ⟨id⟩) :
    ReleaseLock codec s3c (some bucket) path id
      = Delete (s3c.record (Call.get (some bucket) path)) (some bucket) path := by
  simp [ReleaseLock, GetStruct, Get, h, hd]

theorem ReleaseLock_other (codec : LockCodec) (s3c : aws.S3API) (bucket path id : String)
    (o : Object) (l : Lock) (h : s3c.find bucket path = some (Entry.object o))
    (hd : codec.Unmarshal o.body = some l) (hne : l.UUID ≠ id) :
    ReleaseLock codec s3c (some bucket) path id =
      (some (Err.Errorf "Locked with another UUID"), s3c.record (Call.get (some bucket) path)) := by
  simp [ReleaseLock, GetStruct, Get, h, hd, hne]

theorem Delete_ok (s : aws.S3API) (bucket path : String)
    (hd : s.deleteErr.lookup (bucket, path) = none) :
    Delete s (some bucket) path =
      (none, ⟨s.entries.filter (fun e => !(e.1 == (bucket, path))),
        s.putErr, s.deleteErr, s.clock, s.calls ++ [Call.delete (some bucket) path]⟩) := by
  simp [Delete, hd, aws.S3API.record]

/-- Claim C4. In a store where reads and deletes of the lock key do not fail,
`ReleaseLock` returns no error exactly when the key is absent or holds a record
of the requester, and then the key is absent afterwards; when the key holds a
record of another holder it returns an error and leaves the store as it was,
that record included, only the read having been issued. -/
theorem ReleaseLock_contract (codec : LockCodec) (s3c : aws.S3API) (bucket path id : String)
    (hr : ReadsOk codec s3c bucket path) (hd : DeletesOk s3c bucket path) :
    ((ReleaseLock codec s3c (some bucket) path id).1 = none ↔
      (s3c.find bucket path = none ∨ holder codec s3c bucket path = some id)) ∧
    ((ReleaseLock codec s3c (some bucket) path id).1 = none →
      (ReleaseLock codec s3c (some bucket) path id).2.find bucket path = none) ∧
    (∀ other, holder codec s3c bucket path = some other → other ≠ id →
      (ReleaseLock codec s3c (some bucket) path id).1 ≠ none ∧
      (ReleaseLock codec s3c (some bucket) path id).2 = s3c.record (Call.get (some bucket) path) ∧
      (ReleaseLock codec s3c (some bucket) path id).2.find bucket path = s3c.find bucket path ∧
      holder codec (ReleaseLock codec s3c (some bucket) path id).2 bucket path = some other) := by
  unfold DeletesOk at hd
  have hd2 : (s3c.record (Call.get (some bucket) path)).deleteErr.lookup (bucket, path) = none := hd
  have hok := Delete_ok (s3c.record (Call.get (some bucket) path)) bucket path hd2
  rcases hr with hr | hr
  · have hn : holder codec s3c bucket path = none := by simp [holder, hr]
    have hg := ReleaseLock_absent codec s3c bucket path id hr
    refine ⟨?_, ?_, ?_⟩
    · rw [hg]
      simp [hr]
    · intro _
      rw [hg]
      exact hr
    · intro other ho
      simp [hn] at ho
  · obtain ⟨u, hu⟩ := Option.isSome_iff_exists.mp hr
    obtain ⟨o, ho, hdec⟩ := holder_eq_some codec s3c bucket path u hu
    by_cases hid : u = id
    · subst hid
      have hg := ReleaseLock_same codec s3c bucket path u o ho hdec
      refine ⟨?_, ?_, ?_⟩
      · rw [hg, hok]
        simp [hu]
      · intro _
        rw [hg, hok]
        exact lookup_filter_ne _ _
      · intro other hother hne
        rw [hu] at hother
        exact absurd (Option.some.inj hother).symm hne
    · have hg := ReleaseLock_other codec s3c bucket path id o ⟨u⟩ ho hdec hid
      refine ⟨?_, ?_, ?_⟩
      · rw [hg]
        simp [ho, hu, hid]
      · intro h
        rw [hg] at h
        simp at h
      · intro other hother _
        rw [hg]
        exact ⟨by simp, rfl, rfl, hother⟩

/-- Witness of claim C4: releasing a lock held by the requester removes it. -/
theorem ReleaseLock_contract_witness :
    ReadsOk Sample.codec Sample.ownStore "bucket" "path" ∧
      DeletesOk Sample.ownStore "bucket" "path" ∧
      (ReleaseLock Sample.codec Sample.ownStore (some "bucket") "path" "UUID").1 = none :=
  ⟨Or.inr rfl, rfl,
    (ReleaseLock_contract Sample.codec Sample.ownStore "bucket" "path" "UUID"
      (Or.inr rfl) rfl).1.mpr (Or.inr rfl)⟩

theorem CheckUserLock_snd (s3c : aws.S3API) (bucket : Option String) (path : String) :
    (CheckUserLock s3c bucket path).2 = s3c.record (Call.get bucket path) := by
  have h := Get_snd s3c bucket path
  unfold CheckUserLock
  rcases hg : Get s3c bucket path with ⟨res, s⟩
  rw [hg] at h
  simp only at h
  subst h
  cases res with
  | error e => cases e <;> rfl
  | ok o => rfl

end s3

namespace Release

theorem CheckUserLock_state (r : Release) (s3c : aws.S3API) (lockPath : String) :
    (r.CheckUserLock s3c lockPath).2 = s3c.record (s3.Call.get r.Bucket lockPath) := by
  have h := s3.CheckUserLock_snd s3c r.Bucket lockPath
  unfold CheckUserLock
  rcases hg : s3.CheckUserLock s3c r.Bucket lockPath with ⟨res, s⟩
  rw [hg] at h
  simp only at h
  subst h
  cases res <;> rfl

theorem CheckUserLock_error (r : Release) (s3c : aws.S3API) (lockPath : String) :
    (r.CheckUserLock s3c lockPath).1 =
      (s3.CheckUserLock s3c r.Bucket lockPath).1.map
        (fun e => Err.LockExistsError ("CheckUserLock error: " ++ e.Error)) := by
  unfold CheckUserLock
  rcases hg : s3.CheckUserLock s3c r.Bucket lockPath with ⟨res, s⟩
  cases res <;> rfl

/-- Claim C5. If anything exists at the user-lock path, whatever its body,
`s3.CheckUserLock` returns an error and `Release.CheckUserLock` returns it as a
`LockExistsError`; if no object exists there, both return no error; and the
check issues no request but one read. -/
theorem CheckUserLock_contract (r : Release) (s3c : aws.S3API) (bucket path : String)
    (hb : r.Bucket = some bucket) :
    (s3c.find bucket path ≠ none →
      ∃ e, (s3.CheckUserLock s3c (some bucket) path).1 = some e ∧
        (r.CheckUserLock s3c path).1
          = some (Err.LockExistsError ("CheckUserLock error: " ++ e.Error))) ∧
    (∀ o, s3c.find bucket path = some (s3.Entry.object o) →
      (s3.CheckUserLock s3c (some bucket) path).1 ≠ none ∧
      ∃ e, (r.CheckUserLock s3c path).1 = some e ∧ e.isLockExistsError = true) ∧
    (s3c.find bucket path = none →
      (s3.CheckUserLock s3c (some bucket) path).1 = none ∧ (r.CheckUserLock s3c path).1 = none) ∧
    (s3.CheckUserLock s3c (some bucket) path).2 = s3c.record (s3.Call.get (some bucket) path) ∧
    (r.CheckUserLock s3c path).2 = s3c.record (s3.Call.get (some bucket) path) ∧
    (r.CheckUserLock s3c path).2.calls.filter s3.Call.isWrite
      = s3c.calls.filter s3.Call.isWrite := by
  have h1 := r.CheckUserLock_error s3c path
  have h2 := r.CheckUserLock_state s3c path
  rw [hb] at h1 h2
  have hpresent : s3c.find bucket path ≠ none →
      ∃ e, (s3.CheckUserLock s3c (some bucket) path).1 = some e := by
    intro hne
    cases hf : s3c.find bucket path with
    | none => exact absurd hf hne
    | some entry => cases entry <;> simp [s3.CheckUserLock, s3.Get, hf]
  refine ⟨?_, ?_, ?_, s3.CheckUserLock_snd s3c (some bucket) path, h2, ?_⟩
  · intro hne
    obtain ⟨e, he⟩ := hpresent hne
    exact ⟨e, he, by rw [h1, he]; rfl⟩
  · intro o ho
    obtain ⟨e, he⟩ := hpresent (by simp [ho])
    exact ⟨by simp [he], Err.LockExistsError ("CheckUserLock error: " ++ e.Error),
      by rw [h1, he]; rfl, rfl⟩
  · intro hf
    have he : (s3.CheckUserLock s3c (some bucket) path).1 = none := by
      simp [s3.CheckUserLock, s3.Get, hf]
    exact ⟨he, by rw [h1, he]; rfl⟩
  · rw [h2]
    simp [aws.S3API.record, List.filter_append, s3.Call.isWrite]

/-- Witness of claim C5: a user-lock object stops the release. -/
theorem CheckUserLock_contract_witness :
    Sample.release.Bucket = some "bucket" ∧
    (Sample.release.CheckUserLock Sample.userLockedStore "path").2
      = Sample.userLockedStore.record (s3.Call.get (some "bucket") "path") :=
  ⟨rfl, (CheckUserLock_contract Sample.release Sample.userLockedStore "bucket" "path" rfl).2.2.2.2.1⟩

theorem GrabLocks_eq {σ : Type} (r : Release) (codec : s3.LockCodec) (s3c : aws.S3API)
    (locker : Locker σ) (ls : LockerState σ) (lockTableName userLockPath : String)
    (hp : r.UserLockPath = some userLockPath) :
    r.GrabLocks codec s3c locker ls lockTableName =
      match (r.CheckUserLock s3c userLockPath).1 with
      | some err => some (some err, s3c.record (s3.Call.get r.Bucket userLockPath), ls)
      | none =>
        match r.GrabReleaseLock codec (s3c.record (s3.Call.get r.Bucket userLockPath)) with
        | none => none
        | some (some err, s2) => some (some err, s2, ls)
        | some (none, s2) =>
          match r.GrabRootLock locker ls lockTableName with
          | none => none
          | some (oe, ls') => some (oe, s2, ls') := by
  have h := r.CheckUserLock_state s3c userLockPath
  unfold GrabLocks
  rw [hp]
  simp only
  rcases hc : r.CheckUserLock s3c userLockPath with ⟨res, s⟩
  rw [hc] at h
  simp only at h
  subst h
  cases res with
  | some e => rfl
  | none =>
    simp only
    rcases h2 : r.GrabReleaseLock codec (s3c.record (s3.Call.get r.Bucket userLockPath))
      with _ | ⟨e2, s2⟩
    · rfl
    · cases e2 with
      | some e => rfl
      | none =>
        simp only
        rcases h3 : r.GrabRootLock locker ls lockTableName with _ | ⟨e3, l3⟩
        · rfl
        · cases e3 <;> rfl

/-- Claim C6. `GrabLocks` runs the user-lock check, then the release lock on the
store the check left, then the root lock, and stops at the first tier that
fails with that tier's error: after a failed user-lock check the store has seen
one read only and the locker is untouched; after a failed release lock the
locker is untouched; it returns nil exactly when all three tiers succeed. -/
theorem GrabLocks_tiers {σ : Type} (r : Release) (codec : s3.LockCodec) (s3c : aws.S3API)
    (locker : Locker σ) (ls : LockerState σ) (lockTableName userLockPath : String)
    (hp : r.UserLockPath = some userLockPath) :
    (∀ e, (r.CheckUserLock s3c userLockPath).1 = some e →
      r.GrabLocks codec s3c locker ls lockTableName
        = some (some e, s3c.record (s3.Call.get r.Bucket userLockPath), ls)) ∧
    ((r.CheckUserLock s3c userLockPath).1 = none → ∀ e s2,
      r.GrabReleaseLock codec (r.CheckUserLock s3c userLockPath).2 = some (some e, s2) →
      r.GrabLocks codec s3c locker ls lockTableName = some (some e, s2, ls)) ∧
    ((r.CheckUserLock s3c userLockPath).1 = none → ∀ s2,
      r.GrabReleaseLock codec (r.CheckUserLock s3c userLockPath).2 = some (none, s2) →
      ∀ oe ls', r.GrabRootLock locker ls lockTableName = some (oe, ls') →
      r.GrabLocks codec s3c locker ls lockTableName = some (oe, s2, ls')) ∧
    ((∃ s l, r.GrabLocks codec s3c locker ls lockTableName = some (none, s, l)) ↔
      ((r.CheckUserLock s3c userLockPath).1 = none ∧
        (∃ s2, r.GrabReleaseLock codec (r.CheckUserLock s3c userLockPath).2 = some (none, s2)) ∧
        ∃ ls', r.GrabRootLock locker ls lockTableName = some (none, ls'))) := by
  have heq := GrabLocks_eq r codec s3c locker ls lockTableName userLockPath hp
  rw [r.CheckUserLock_state s3c userLockPath]
  refine ⟨?_, ?_, ?_, ?_⟩
  · intro e he
    rw [heq, he]
  · intro h1 e s2 h2
    rw [heq, h1]
    simp only
    rw [h2]
  · intro h1 s2 h2 oe ls' h3
    rw [heq, h1]
    simp only
    rw [h2]
    simp only
    rw [h3]
  · rw [heq]
    cases h1 : (r.CheckUserLock s3c userLockPath).1 with
    | some e => simp
    | none =>
      simp only
      rcases h2 : r.GrabReleaseLock codec (s3c.record (s3.Call.get r.Bucket userLockPath))
        with _ | ⟨e2, s2⟩
      · simp
      · cases e2 with
        | some e => simp
        | none =>
          simp only
          rcases h3 : r.GrabRootLock locker ls lockTableName with _ | ⟨e3, l3⟩
          · simp
          · cases e3 <;> simp

/-- Witness of claim C6: a user lock stops `GrabLocks` after one read, the
locker untouched. -/
theorem GrabLocks_tiers_witness :
    Sample.release.UserLockPath = some "00000000/project/development/user-lock" ∧
    Sample.release.GrabLocks Sample.codec Sample.operatorStore Sample.keyedLocker Sample.noLocks
        "locks"
      = some (some (Err.LockExistsError ("CheckUserLock error: Deploys locked by user lock at " ++
            "00000000/project/development/user-lock")),
          Sample.operatorStore.record
            (s3.Call.get (some "bucket") "00000000/project/development/user-lock"),
          Sample.noLocks) :=
  ⟨rfl, (GrabLocks_tiers Sample.release Sample.codec Sample.operatorStore Sample.keyedLocker
      Sample.noLocks "locks" "00000000/project/development/user-lock" rfl).1 _ rfl⟩

end Release

namespace s3

theorem Put_none_holder (codec : LockCodec) (hc : codec.Lawful) (s : aws.S3API)
    (bucket : Option String) (path id : String)
    (h : (Put s bucket path (codec.Marshal ⟨id⟩)).1 = none) :
    ∃ b, bucket = some b ∧
      holder codec (Put s bucket path (codec.Marshal ⟨id⟩)).2 b path = some id := by
  cases bucket with
  | none => simp [Put] at h
  | some b =>
    refine ⟨b, rfl, ?_⟩
    cases hw : s.putErr.lookup (b, path) with
    | some msg => simp [Put, hw] at h
    | none => exact holder_Put codec hc s b path id hw

theorem GrabLock_grabbed_holder (codec : LockCodec) (hc : codec.Lawful) (s3c : aws.S3API)
    (bucket : Option String) (path id : String)
    (h : (GrabLock codec s3c bucket path id).1 = (true, none)) :
    ∃ b, bucket = some b ∧ holder codec (GrabLock codec s3c bucket path id).2 b path = some id := by
  unfold GrabLock at h ⊢
  rcases hg : GetStruct codec.Unmarshal s3c bucket path with ⟨res, s⟩
  rw [hg] at h
  cases res with
  | error e =>
    cases e with
    | NotFoundError msg =>
      simp only at h ⊢
      have hp : (Put s bucket path (codec.Marshal ⟨id⟩)).1 = none := by
        simpa using h
      exact Put_none_holder codec hc s bucket path id hp
    | Errorf msg => simp at h
    | LockExistsError c => simp at h
    | LockError c => simp at h
  | ok l =>
    simp only at h ⊢
    by_cases hl : l.UUID = id
    · rw [if_pos hl] at h ⊢
      have hp : (Put s bucket path (codec.Marshal ⟨id⟩)).1 = none := by
        simpa using h
      exact Put_none_holder codec hc s bucket path id hp
    · rw [if_neg hl] at h
      simp at h

end s3

namespace Release

theorem grabS3Lock_LockExistsError (r : Release) (codec : s3.LockCodec) (s s2 : aws.S3API)
    (lockPath : String) (e : Err) (h : r.grabS3Lock codec s lockPath = some (some e, s2))
    (he : e.isLockExistsError = true) :
    s2 = s.record (s3.Call.get r.Bucket lockPath) := by
  unfold grabS3Lock at h
  cases hu : r.UUID with
  | none => simp [hu] at h
  | some uuid =>
    rw [hu] at h
    simp only at h
    have hn := s3.GrabLock_not_grabbed codec s r.Bucket lockPath uuid
    rcases hg : s3.GrabLock codec s r.Bucket lockPath uuid with ⟨⟨g, err⟩, st⟩
    rw [hg] at h hn
    cases g with
    | false =>
      have hst : st = s.record (s3.Call.get r.Bucket lockPath) := hn rfl
      cases err with
      | some e1 =>
        simp only [Option.some.injEq, Prod.mk.injEq] at h
        rw [← h.2, hst]
      | none =>
        simp only at h
        cases hb : r.Bucket with
        | none => simp [hb] at h
        | some b =>
          rw [hb] at h
          simp only [Option.some.injEq, Prod.mk.injEq] at h
          rw [← h.2, hst, hb]
    | true =>
      cases err with
      | some e1 =>
        simp only [Option.some.injEq, Prod.mk.injEq] at h
        rw [← h.1] at he
        simp [Err.isLockExistsError] at he
      | none => simp at h

theorem grabS3Lock_nil (r : Release) (codec : s3.LockCodec) (hc : codec.Lawful)
    (s s2 : aws.S3API) (lockPath : String) (h : r.grabS3Lock codec s lockPath = some (none, s2)) :
    ∃ bucket uuid, r.Bucket = some bucket ∧ r.UUID = some uuid ∧
      s3.holder codec s2 bucket lockPath = some uuid := by
  unfold grabS3Lock at h
  cases hu : r.UUID with
  | none => simp [hu] at h
  | some uuid =>
    rw [hu] at h
    simp only at h
    have hh := s3.GrabLock_grabbed_holder codec hc s r.Bucket lockPath uuid
    rcases hg : s3.GrabLock codec s r.Bucket lockPath uuid with ⟨⟨g, err⟩, st⟩
    rw [hg] at h hh
    cases g with
    | false =>
      cases err with
      | some e1 => simp at h
      | none =>
        simp only at h
        cases hb : r.Bucket with
        | none => simp [hb] at h
        | some b => simp [hb] at h
    | true =>
      cases err with
      | some e1 => simp at h
      | none =>
        simp only [Option.some.injEq, Prod.mk.injEq, true_and] at h
        obtain ⟨b, hb, hhold⟩ := hh rfl
        subst h
        exact ⟨b, uuid, hb, rfl, hhold⟩

theorem grabGenericLock_LockExistsError {σ : Type} (r : Release) (locker : Locker σ)
    (ls ls' : LockerState σ) (lockTableName lockPath : String) (e : Err)
    (h : r.grabGenericLock locker ls lockTableName lockPath = some (some e, ls'))
    (he : e.isLockExistsError = true) :
    ∃ uuid, r.UUID = some uuid ∧
      (locker.GrabLock ls.store lockTableName lockPath uuid "").1.1 = false ∧
      ls'.store = (locker.GrabLock ls.store lockTableName lockPath uuid "").2 ∧
      ls'.calls = ls.calls ++ [LockerCall.GrabLock lockTableName lockPath uuid ""] := by
  unfold grabGenericLock at h
  cases hu : r.UUID with
  | none => simp [hu] at h
  | some uuid =>
    rw [hu] at h
    refine ⟨uuid, rfl, ?_⟩
    rcases hg : locker.GrabLock ls.store lockTableName lockPath uuid "" with ⟨⟨g, err⟩, st⟩
    simp only [Locker.grab, hg] at h
    cases g with
    | false =>
      cases err with
      | some e1 =>
        simp only [Option.some.injEq, Prod.mk.injEq] at h
        rw [← h.2]
        exact ⟨rfl, rfl, rfl⟩
      | none =>
        simp only [Option.some.injEq, Prod.mk.injEq] at h
        rw [← h.2]
        exact ⟨rfl, rfl, rfl⟩
    | true =>
      cases err with
      | some e1 =>
        simp only [Option.some.injEq, Prod.mk.injEq] at h
        rw [← h.1] at he
        simp [Err.isLockExistsError] at he
      | none => simp at h

theorem lookup_filter_other (entries : List ((String × String) × s3.Entry))
    (k k' : String × String) (h : k' ≠ k) :
    List.lookup k' (entries.filter (fun x => !(x.1 == k))) = List.lookup k' entries := by
  induction entries with
  | nil => rfl
  | cons x xs ih =>
    obtain ⟨a, b⟩ := x
    rw [List.filter_cons]
    by_cases hx : a = k
    · have h3 : (!((a, b).1 == k)) = false := by simp [hx]
      have h4 : (k' == a) = false := by
        simp only [beq_eq_false_iff_ne, ne_eq]
        exact fun e => h (e.trans hx)
      simp only [h3, Bool.false_eq_true, if_false, List.lookup, h4]
      exact ih
    · have h3 : (!((a, b).1 == k)) = true := by simp [hx]
      rw [if_pos h3]
      by_cases hk : k' = a
      · subst hk
        simp [List.lookup]
      · have h4 : (k' == a) = false := by simp [hk]
        simp only [List.lookup, h4]
        exact ih

theorem GrabLock_grabbed_state (codec : s3.LockCodec) (s3c : aws.S3API)
    (bucket : Option String) (path id : String)
    (h : (s3.GrabLock codec s3c bucket path id).1 = (true, none)) :
    ∃ b, bucket = some b ∧
      (s3.GrabLock codec s3c bucket path id).2 =
        ⟨((b, path), s3.Entry.object ⟨codec.Marshal ⟨id⟩, s3c.clock⟩) ::
            s3c.entries.filter (fun e => !(e.1 == (b, path))),
          s3c.putErr, s3c.deleteErr, s3c.clock,
          s3c.calls ++ [s3.Call.get (some b) path] ++
            [s3.Call.put (some b) path (codec.Marshal ⟨id⟩)]⟩ := by
  have hs := s3.GetStruct_snd codec.Unmarshal s3c bucket path
  have hput : ∀ s : aws.S3API, s = s3c.record (s3.Call.get bucket path) →
      (s3.Put s bucket path (codec.Marshal ⟨id⟩)).1 = none →
      ∃ b, bucket = some b ∧ (s3.Put s bucket path (codec.Marshal ⟨id⟩)).2 =
        ⟨((b, path), s3.Entry.object ⟨codec.Marshal ⟨id⟩, s3c.clock⟩) ::
            s3c.entries.filter (fun e => !(e.1 == (b, path))),
          s3c.putErr, s3c.deleteErr, s3c.clock,
          s3c.calls ++ [s3.Call.get (some b) path] ++
            [s3.Call.put (some b) path (codec.Marshal ⟨id⟩)]⟩ := by
    intro s hs2 hp
    subst hs2
    cases bucket with
    | none => simp [s3.Put] at hp
    | some b =>
      refine ⟨b, rfl, ?_⟩
      cases hw : (s3c.record (s3.Call.get (some b) path)).putErr.lookup (b, path) with
      | some msg => simp [s3.Put, hw] at hp
      | none =>
        rw [s3.Put_ok _ b path _ hw]
        rfl
  unfold s3.GrabLock at h ⊢
  rcases hg : s3.GetStruct codec.Unmarshal s3c bucket path with ⟨res, s⟩
  rw [hg] at h hs
  simp only at hs
  cases res with
  | error e =>
    cases e with
    | NotFoundError msg =>
      simp only at h ⊢
      exact hput s hs (by simpa using h)
    | Errorf msg => simp at h
    | LockExistsError c => simp at h
    | LockError c => simp at h
  | ok l =>
    simp only at h ⊢
    by_cases hl : l.UUID = id
    · rw [if_pos hl] at h ⊢
      exact hput s hs (by simpa using h)
    · rw [if_neg hl] at h
      simp at h

theorem grabS3Lock_nil_state (r : Release) (codec : s3.LockCodec) (s s2 : aws.S3API)
    (lockPath : String) (h : r.grabS3Lock codec s lockPath = some (none, s2)) :
    ∃ bucket uuid, r.Bucket = some bucket ∧ r.UUID = some uuid ∧
      s2 = ⟨((bucket, lockPath), s3.Entry.object ⟨codec.Marshal ⟨uuid⟩, s.clock⟩) ::
            s.entries.filter (fun e => !(e.1 == (bucket, lockPath))),
          s.putErr, s.deleteErr, s.clock,
          s.calls ++ [s3.Call.get (some bucket) lockPath] ++
            [s3.Call.put (some bucket) lockPath (codec.Marshal ⟨uuid⟩)]⟩ := by
  unfold grabS3Lock at h
  cases hu : r.UUID with
  | none => simp [hu] at h
  | some uuid =>
    rw [hu] at h
    simp only at h
    have hh := GrabLock_grabbed_state codec s r.Bucket lockPath uuid
    rcases hg : s3.GrabLock codec s r.Bucket lockPath uuid with ⟨⟨g, err⟩, st⟩
    rw [hg] at h hh
    cases g with
    | false =>
      cases err with
      | some e1 => simp at h
      | none =>
        simp only at h
        cases hb : r.Bucket with
        | none => simp [hb] at h
        | some b => simp [hb] at h
    | true =>
      cases err with
      | some e1 => simp at h
      | none =>
        simp only [Option.some.injEq, Prod.mk.injEq, true_and] at h
        obtain ⟨b, hb, hst⟩ := hh rfl
        subst h
        exact ⟨b, uuid, hb, rfl, hst⟩

/-- Claim C7, refuted as stated: with the root lock held by another release,
`GrabLocks` returns a `LockExistsError`, yet the object store, empty before the
call, holds the release-lock record afterwards; the keyed store is unchanged. -/
theorem GrabLocks_LockExistsError_leaves_release_lock :
    Sample.emptyStore.entries = [] ∧
    (Sample.release.GrabLocks Sample.codec Sample.emptyStore Sample.keyedLocker Sample.rootHeld
        "locks").map (fun x => (x.1.map Err.isLockExistsError, x.2.1.entries, x.2.2.store))
      = some (some true,
          [(("bucket", "00000000/project/development/release-1/lock"),
            s3.Entry.object ⟨"UUID", 0⟩)],
          [("locks", "00000000/project/development/lock", "OTHER")]) :=
  ⟨rfl, rfl⟩

/-- Claim C7, amended. If `GrabLocks` returns a `LockExistsError`, then either
the locker was never called (the error comes from the user-lock check or from
the release lock) and nothing was mutated: the keyed store and the records of
the object store are as before and no write was issued; or the error comes from
the root lock, reported as not grabbed by the locker in its one call, and the
only mutation is the release-lock record of this release, written by one PUT at
`ReleaseLockPath`: every other key of the object store is as before, and the
keyed store is as that refused grab left it, which is as before for a locker
that writes nothing when it reports not grabbed. -/
theorem GrabLocks_LockExistsError_frame {σ : Type} (r : Release) (codec : s3.LockCodec)
    (hc : codec.Lawful) (s3c : aws.S3API) (locker : Locker σ) (ls : LockerState σ)
    (lockTableName : String) (e : Err) (s' : aws.S3API) (ls' : LockerState σ)
    (h : r.GrabLocks codec s3c locker ls lockTableName = some (some e, s', ls'))
    (he : e.isLockExistsError = true) :
    (ls' = ls ∧ s'.entries = s3c.entries ∧
      s'.calls.filter s3.Call.isWrite = s3c.calls.filter s3.Call.isWrite) ∨
    (∃ bucket lockPath rootPath uuid, r.Bucket = some bucket ∧
      r.ReleaseLockPath = some lockPath ∧ r.RootLockPath = some rootPath ∧ r.UUID = some uuid ∧
      (locker.GrabLock ls.store lockTableName rootPath uuid "").1.1 = false ∧
      ls'.store = (locker.GrabLock ls.store lockTableName rootPath uuid "").2 ∧
      (locker.RefusesCleanly → ls'.store = ls.store) ∧
      ls'.calls = ls.calls ++ [LockerCall.GrabLock lockTableName rootPath uuid ""] ∧
      s3.holder codec s' bucket lockPath = some uuid ∧
      s'.SameExceptAt s3c bucket lockPath ∧
      s'.calls.filter s3.Call.isWrite = s3c.calls.filter s3.Call.isWrite ++
        [s3.Call.put (some bucket) lockPath (codec.Marshal ⟨uuid⟩)]) := by
  cases hp : r.UserLockPath with
  | none => simp [GrabLocks, hp] at h
  | some userLockPath =>
    rw [GrabLocks_eq r codec s3c locker ls lockTableName userLockPath hp] at h
    cases h1 : (r.CheckUserLock s3c userLockPath).1 with
    | some e1 =>
      rw [h1] at h
      simp only [Option.some.injEq, Prod.mk.injEq] at h
      obtain ⟨_, hs, hl⟩ := h
      left
      subst hs hl
      refine ⟨rfl, rfl, ?_⟩
      simp [aws.S3API.record, List.filter_append, s3.Call.isWrite]
    | none =>
      rw [h1] at h
      simp only at h
      cases hl : r.ReleaseLockPath with
      | none => simp [GrabReleaseLock, hl] at h
      | some lockPath =>
        have hrel : r.GrabReleaseLock codec (s3c.record (s3.Call.get r.Bucket userLockPath))
            = r.grabS3Lock codec (s3c.record (s3.Call.get r.Bucket userLockPath)) lockPath := by
          simp [GrabReleaseLock, hl]
        rw [hrel] at h
        rcases h2 : r.grabS3Lock codec (s3c.record (s3.Call.get r.Bucket userLockPath)) lockPath
          with _ | ⟨e2, s2⟩
        · simp [h2] at h
        · rw [h2] at h
          cases e2 with
          | some e2v =>
            simp only [Option.some.injEq, Prod.mk.injEq] at h
            obtain ⟨he2, hs, hl2⟩ := h
            subst he2 hs hl2
            have hst := grabS3Lock_LockExistsError r codec _ _ lockPath _ h2 he
            left
            rw [hst]
            refine ⟨rfl, rfl, ?_⟩
            simp [aws.S3API.record, List.filter_append, s3.Call.isWrite]
          | none =>
            simp only at h
            obtain ⟨bucket, uuid, hb, hu, hhold⟩ := grabS3Lock_nil r codec hc _ _ lockPath h2
            obtain ⟨bucket2, uuid3, hb2, hu3, hstate⟩ :=
              grabS3Lock_nil_state r codec _ _ lockPath h2
            rw [hb] at hb2
            cases hb2
            rw [hu] at hu3
            cases hu3
            cases hr : r.RootLockPath with
            | none => simp [GrabRootLock, hr] at h
            | some rootPath =>
              have hroot : r.GrabRootLock locker ls lockTableName
                  = r.grabGenericLock locker ls lockTableName rootPath := by
                simp [GrabRootLock, hr]
              rw [hroot] at h
              rcases h3 : r.grabGenericLock locker ls lockTableName rootPath with _ | ⟨e3, l3⟩
              · simp [h3] at h
              · rw [h3] at h
                simp only [Option.some.injEq, Prod.mk.injEq] at h
                obtain ⟨he3, hs, hl3⟩ := h
                subst he3 hs hl3
                obtain ⟨uuid2, hu2, hg1, hg2, hg3⟩ :=
                  grabGenericLock_LockExistsError r locker ls _ lockTableName rootPath e h3 he
                rw [hu] at hu2
                cases hu2
                right
                refine ⟨bucket, lockPath, rootPath, uuid, hb, rfl, rfl, hu, hg1, hg2, ?_, hg3,
                  hhold, ?_, ?_⟩
                · intro hclean
                  rw [hg2]
                  exact hclean _ _ _ _ _ hg1
                · rw [hstate]
                  refine ⟨?_, rfl, rfl, rfl⟩
                  intro b p hne
                  have hne2 : ¬ (b, p) = (bucket, lockPath) := hne
                  have hbeq : ((b, p) == (bucket, lockPath)) = false := by
                    simp only [beq_eq_false_iff_ne, ne_eq]
                    exact hne2
                  simp only [aws.S3API.find, List.lookup, hbeq]
                  exact lookup_filter_other _ _ _ hne
                · rw [hstate]
                  simp [aws.S3API.record, List.filter_append, s3.Call.isWrite]

/-- Witness of claim C7, amended: with the uploaded release in the object store
and the root lock held by another release, `GrabLocks` returns a
`LockExistsError` and one of the two alternatives holds of what it leaves. -/
theorem GrabLocks_LockExistsError_frame_witness :
    (Sample.contendedLocks = Sample.rootHeld ∧
      Sample.contendedStore.entries = Sample.uploadedStore.entries ∧
      Sample.contendedStore.calls.filter s3.Call.isWrite
        = Sample.uploadedStore.calls.filter s3.Call.isWrite) ∨
    (∃ bucket lockPath rootPath uuid, Sample.release.Bucket = some bucket ∧
      Sample.release.ReleaseLockPath = some lockPath ∧
      Sample.release.RootLockPath = some rootPath ∧ Sample.release.UUID = some uuid ∧
      (Sample.keyedLocker.GrabLock Sample.rootHeld.store "locks" rootPath uuid "").1.1 = false ∧
      Sample.contendedLocks.store
        = (Sample.keyedLocker.GrabLock Sample.rootHeld.store "locks" rootPath uuid "").2 ∧
      (Sample.keyedLocker.RefusesCleanly → Sample.contendedLocks.store = Sample.rootHeld.store) ∧
      Sample.contendedLocks.calls
        = Sample.rootHeld.calls ++ [LockerCall.GrabLock "locks" rootPath uuid ""] ∧
      s3.holder Sample.codec Sample.contendedStore bucket lockPath = some uuid ∧
      Sample.contendedStore.SameExceptAt Sample.uploadedStore bucket lockPath ∧
      Sample.contendedStore.calls.filter s3.Call.isWrite
        = Sample.uploadedStore.calls.filter s3.Call.isWrite ++
          [s3.Call.put (some bucket) lockPath (Sample.codec.Marshal ⟨uuid⟩)]) :=
  GrabLocks_LockExistsError_frame Sample.release Sample.codec (fun _ => rfl) Sample.uploadedStore
    Sample.keyedLocker Sample.rootHeld "locks" Sample.contendedError Sample.contendedStore
    Sample.contendedLocks rfl rfl

/-- Claim C8. When one of the ten required fields is unset, `Validate` (given a
pointer destination) returns an error whose message starts with the name of
the first unset field in the order of the checks; the result is a function of
that field alone, and the store is not consulted. -/
theorem Validate_names_first_unset {α : Type} (r : Release) (now : Time) (s3c : aws.S3API)
    (cRelease : Destination α) (hptr : cRelease.isPtr = true) :
    ((∃ f ∈ r.requiredFields, f.2 = true) → ∃ field, r.firstUnset = some field) ∧
    (∀ field, r.firstUnset = some field →
      r.Validate now s3c cRelease
        = some (some (Err.Errorf (field ++ unsetSuffix field)), s3c)) := by
  constructor
  · rintro ⟨f, hf, hf2⟩
    unfold firstUnset
    cases hfind : r.requiredFields.find? (fun f => f.2) with
    | none =>
      rw [List.find?_eq_none] at hfind
      exact absurd hf2 (hfind f hf)
    | some g => exact ⟨g.1, rfl⟩
  · intro field hfield
    unfold firstUnset requiredFields at hfield
    unfold Validate
    simp only [hptr, Bool.not_true, Bool.false_eq_true, if_false]
    cases h1 : is.EmptyStr r.AwsAccountID with
    | true =>
      simp [List.find?, h1] at hfield
      subst hfield
      simp [unsetSuffix]
    | false =>
    cases h2 : is.EmptyStr r.AwsRegion with
    | true =>
      simp [List.find?, h1, h2] at hfield
      subst hfield
      simp [unsetSuffix]
    | false =>
    cases h3 : is.EmptyStr r.UUID with
    | true =>
      simp [List.find?, h1, h2, h3] at hfield
      subst hfield
      simp [unsetSuffix]
    | false =>
    cases h4 : is.EmptyStr r.ReleaseID with
    | true =>
      simp [List.find?, h1, h2, h3, h4] at hfield
      subst hfield
      simp [unsetSuffix]
    | false =>
    cases h5 : is.EmptyStr r.ProjectName with
    | true =>
      simp [List.find?, h1, h2, h3, h4, h5] at hfield
      subst hfield
      simp [unsetSuffix]
    | false =>
    cases h6 : is.EmptyStr r.ConfigName with
    | true =>
      simp [List.find?, h1, h2, h3, h4, h5, h6] at hfield
      subst hfield
      simp [unsetSuffix]
    | false =>
    cases h7 : is.EmptyStr r.Bucket with
    | true =>
      simp [List.find?, h1, h2, h3, h4, h5, h6, h7] at hfield
      subst hfield
      simp [unsetSuffix]
    | false =>
    cases h8 : r.Timeout with
    | none =>
      simp [List.find?, h1, h2, h3, h4, h5, h6, h7, h8] at hfield
      subst hfield
      simp [unsetSuffix]
    | some t =>
    cases h9 : r.CreatedAt with
    | none =>
      simp [List.find?, h1, h2, h3, h4, h5, h6, h7, h8, h9] at hfield
      subst hfield
      simp [unsetSuffix]
    | some c =>
    cases h10 : r.StartedAt with
    | none =>
      simp [List.find?, h1, h2, h3, h4, h5, h6, h7, h8, h9, h10] at hfield
      subst hfield
      simp [unsetSuffix]
    | some st =>
      simp [List.find?, h1, h2, h3, h4, h5, h6, h7, h8, h9, h10] at hfield

/-- Witness of claim C8: with the region and the project name unset, the error
names the region. -/
theorem Validate_names_first_unset_witness :
    Sample.dest.isPtr = true ∧ Sample.noRegion.firstUnset = some "AwsRegion" ∧
    Sample.noRegion.Validate 0 Sample.emptyStore Sample.dest
      = some (some (Err.Errorf "AwsRegion must be defined"), Sample.emptyStore) :=
  ⟨rfl, rfl,
    (Validate_names_first_unset Sample.noRegion 0 Sample.emptyStore Sample.dest rfl).2
      "AwsRegion" rfl⟩

theorem firstUnset_none (r : Release) (h : r.firstUnset = none) :
    is.EmptyStr r.AwsAccountID = false ∧ is.EmptyStr r.AwsRegion = false ∧
    is.EmptyStr r.UUID = false ∧ is.EmptyStr r.ReleaseID = false ∧
    is.EmptyStr r.ProjectName = false ∧ is.EmptyStr r.ConfigName = false ∧
    is.EmptyStr r.Bucket = false ∧ r.Timeout ≠ none ∧ r.CreatedAt ≠ none ∧
    r.StartedAt ≠ none := by
  unfold firstUnset at h
  rw [Option.map_eq_none', List.find?_eq_none] at h
  have hall : ∀ f ∈ r.requiredFields, f.2 = false := fun f hf => by simpa using h f hf
  simp only [requiredFields, List.mem_cons, List.mem_singleton, forall_eq_or_imp, forall_eq,
    List.not_mem_nil, false_implies, implies_true, and_true, Option.isNone_eq_false_iff] at hall
  obtain ⟨a1, a2, a3, a4, a5, a6, a7, a8, a9, a10⟩ := hall
  exact ⟨a1, a2, a3, a4, a5, a6, a7, Option.ne_none_iff_isSome.mpr a8,
    Option.ne_none_iff_isSome.mpr a9, Option.ne_none_iff_isSome.mpr a10⟩

theorem Validate_of_set {α : Type} (r : Release) (now : Time) (s3c : aws.S3API)
    (cRelease : Destination α) (hptr : cRelease.isPtr = true) (hset : r.firstUnset = none) :
    r.Validate now s3c cRelease =
      if is.WithinTimeFrame now r.CreatedAt (10 * 24 * time.Hour) (2 * time.Minute) = true then
        r.validateReleaseSHA s3c cRelease
      else some (some (Err.Errorf "Created at older than 10 days (or in the future)"), s3c) := by
  obtain ⟨a1, a2, a3, a4, a5, a6, a7, a8, a9, a10⟩ := firstUnset_none r hset
  unfold Validate
  simp only [hptr, a1, a2, a3, a4, a5, a6, a7, a8, a9, a10, Bool.not_true, Bool.false_eq_true,
    if_false]
  cases hw : is.WithinTimeFrame now r.CreatedAt (10 * 24 * time.Hour) (2 * time.Minute) with
  | false => simp
  | true =>
    simp only [Bool.not_true, Bool.false_eq_true, if_false, if_true]
    rcases hv : r.validateReleaseSHA s3c cRelease with _ | ⟨e, s⟩
    · rfl
    · cases e <;> rfl

theorem ReleasePath_of_set (r : Release) (hset : r.firstUnset = none) :
    ∃ bucket path, r.Bucket = some bucket ∧ r.ReleasePath = some path := by
  obtain ⟨a1, _, _, a4, a5, a6, a7, _, _, _⟩ := firstUnset_none r hset
  cases hb : r.Bucket with
  | none => simp [hb, is.EmptyStr] at a7
  | some bucket =>
    cases ha : r.AwsAccountID with
    | none => simp [ha, is.EmptyStr] at a1
    | some a =>
      cases hp : r.ProjectName with
      | none => simp [hp, is.EmptyStr] at a5
      | some p =>
        cases hc : r.ConfigName with
        | none => simp [hc, is.EmptyStr] at a6
        | some c =>
          cases hi : r.ReleaseID with
          | none => simp [hi, is.EmptyStr] at a4
          | some i =>
            exact ⟨bucket, a ++ "/" ++ p ++ "/" ++ c ++ "/" ++ i ++ "/release", rfl,
              by simp [ReleasePath, ReleaseDir, RootDir, ProjectDir, ha, hp, hc, hi]⟩

theorem validateReleaseSHA_nil_iff {α : Type} (r : Release) (s3c : aws.S3API)
    (cRelease : Destination α) (bucket path : String) (hb : r.Bucket = some bucket)
    (hp : r.ReleasePath = some path) :
    ((r.validateReleaseSHA s3c cRelease).map Prod.fst = some none ↔
      ∃ o v, s3c.find bucket path = some (s3.Entry.object o) ∧
        cRelease.Unmarshal o.body = some v ∧ cRelease.SHA256Struct v = r.ReleaseSHA256) ∧
    ((r.validateReleaseSHA s3c cRelease).map Prod.fst ≠ some none →
      ∃ e, (r.validateReleaseSHA s3c cRelease).map Prod.fst = some (some e)) := by
  unfold validateReleaseSHA
  rw [hp, hb]
  simp only [s3.GetStruct, s3.Get]
  cases hf : s3c.find bucket path with
  | none => simp
  | some entry =>
    cases entry with
    | unreadable msg => simp
    | object o =>
      simp only
      cases hu : cRelease.Unmarshal o.body with
      | none => simp [hu]
      | some v =>
        simp only
        by_cases hsha : cRelease.SHA256Struct v = r.ReleaseSHA256
        · simp [hsha, hu]
        · simp [hsha, hu]

/-- Claim C9. For a release whose ten required fields are set and whose
`CreatedAt` is inside the accepted window, `Validate` (given a pointer
destination) returns nil exactly when the object at `ReleasePath` in the
bucket of the release is there, deserializes into the destination and hashes
to `ReleaseSHA256`; in every other case it returns a non-nil error. -/
theorem Validate_sha {α : Type} (r : Release) (now : Time) (s3c : aws.S3API)
    (cRelease : Destination α) (hptr : cRelease.isPtr = true) (hset : r.firstUnset = none)
    (hwin : is.WithinTimeFrame now r.CreatedAt (10 * 24 * time.Hour) (2 * time.Minute) = true) :
    ∃ bucket path, r.Bucket = some bucket ∧ r.ReleasePath = some path ∧
      ((r.Validate now s3c cRelease).map Prod.fst = some none ↔
        ∃ o v, s3c.find bucket path = some (s3.Entry.object o) ∧
          cRelease.Unmarshal o.body = some v ∧ cRelease.SHA256Struct v = r.ReleaseSHA256) ∧
      ((r.Validate now s3c cRelease).map Prod.fst ≠ some none →
        ∃ e, (r.Validate now s3c cRelease).map Prod.fst = some (some e)) := by
  obtain ⟨bucket, path, hb, hp⟩ := ReleasePath_of_set r hset
  refine ⟨bucket, path, hb, hp, ?_⟩
  rw [Validate_of_set r now s3c cRelease hptr hset, if_pos hwin]
  exact validateReleaseSHA_nil_iff r s3c cRelease bucket path hb hp

/-- Witness of claim C9: the uploaded release is there and hashes to the
recorded hash, and `Validate` returns nil. -/
theorem Validate_sha_witness :
    Sample.release.firstUnset = none ∧
    ∃ bucket path, Sample.release.Bucket = some bucket ∧
      Sample.release.ReleasePath = some path ∧
      ((Sample.release.Validate 0 Sample.uploadedStore Sample.dest).map Prod.fst = some none ↔
        ∃ o v, Sample.uploadedStore.find bucket path = some (s3.Entry.object o) ∧
          Sample.dest.Unmarshal o.body = some v ∧
          Sample.dest.SHA256Struct v = Sample.release.ReleaseSHA256) ∧
      ((Sample.release.Validate 0 Sample.uploadedStore Sample.dest).map Prod.fst ≠ some none →
        ∃ e, (Sample.release.Validate 0 Sample.uploadedStore Sample.dest).map Prod.fst
          = some (some e)) :=
  ⟨rfl, Validate_sha Sample.release 0 Sample.uploadedStore Sample.dest rfl rfl rfl⟩

theorem WithinTimeFrame_created (now created : Int) :
    is.WithinTimeFrame now (some created) (10 * 24 * time.Hour) (2 * time.Minute) = true ↔
      (now - 864000000000000 ≤ created ∧ created ≤ now + 120000000000) := by
  simp only [is.WithinTimeFrame, time.Hour, time.Minute, time.Second, Bool.and_eq_true,
    decide_eq_true_eq]
  unfold Time Duration at *
  constructor <;> intro h <;> constructor <;> omega

/-- Claim C10. For a release whose ten required fields are set and whose stored
artifact hashes to `ReleaseSHA256`, `Validate` (given a pointer destination)
returns an error when `CreatedAt` is more than 10 days before `now` or more
than 2 minutes after it, and returns nil when `CreatedAt` is strictly inside
the window, in particular one second inside either boundary. -/
theorem Validate_window {α : Type} (r : Release) (now created : Time) (s3c : aws.S3API)
    (cRelease : Destination α) (hptr : cRelease.isPtr = true) (hset : r.firstUnset = none)
    (hc : r.CreatedAt = some created)
    (hart : ∃ bucket path o v, r.Bucket = some bucket ∧ r.ReleasePath = some path ∧
      s3c.find bucket path = some (s3.Entry.object o) ∧ cRelease.Unmarshal o.body = some v ∧
      cRelease.SHA256Struct v = r.ReleaseSHA256) :
    ((created < now - 10 * 24 * time.Hour ∨ now + 2 * time.Minute < created) →
      ∃ e, r.Validate now s3c cRelease = some (some e, s3c)) ∧
    ((now - 10 * 24 * time.Hour < created ∧ created < now + 2 * time.Minute) →
      (r.Validate now s3c cRelease).map Prod.fst = some none) ∧
    ((created = now - 10 * 24 * time.Hour + time.Second ∨
        created = now + 2 * time.Minute - time.Second) →
      (r.Validate now s3c cRelease).map Prod.fst = some none) := by
  obtain ⟨bucket, path, o, v, hb, hp, hf, hu, hsha⟩ := hart
  have hv := Validate_of_set r now s3c cRelease hptr hset
  rw [hc] at hv
  have hin : ((now : Int) - 864000000000000 ≤ created ∧ (created : Int) ≤ now + 120000000000) →
      (r.Validate now s3c cRelease).map Prod.fst = some none := by
    intro h
    rw [hv, if_pos ((WithinTimeFrame_created now created).mpr h)]
    exact (validateReleaseSHA_nil_iff r s3c cRelease bucket path hb hp).1.mpr
      ⟨o, v, hf, hu, hsha⟩
  simp only [time.Hour, time.Minute, time.Second]
  unfold Time Duration at *
  refine ⟨?_, ?_, ?_⟩
  · intro h
    have hout : ¬ (is.WithinTimeFrame now (some created) (10 * 24 * time.Hour)
        (2 * time.Minute) = true) := by
      rw [WithinTimeFrame_created]
      omega
    rw [hv, if_neg hout]
    exact ⟨_, rfl⟩
  · intro h
    exact hin (by omega)
  · intro h
    exact hin (by omega)

/-- Witness of claim C10: created one second inside the ten-day boundary. -/
theorem Validate_window_witness :
    Sample.release.firstUnset = none ∧
    (Sample.release.Validate
      (10 * 24 * time.Hour - time.Second) Sample.uploadedStore Sample.dest).map Prod.fst
      = some none :=
  ⟨rfl,
    (Validate_window Sample.release (10 * 24 * time.Hour - time.Second) 0 Sample.uploadedStore
      Sample.dest rfl rfl rfl
      ⟨"bucket", "00000000/project/development/release-1/release", ⟨"sha", 0⟩, "sha",
        rfl, rfl, rfl, rfl, rfl⟩).2.2 (Or.inl (by decide))⟩

end Release

namespace Release

theorem EmptyStr_false (s : Option String) (h : is.EmptyStr s = false) :
    ∃ v, s = some v ∧ v ≠ "" := by
  cases s with
  | none => simp [is.EmptyStr] at h
  | some v => exact ⟨v, rfl, by simpa [is.EmptyStr] using h⟩

theorem record_ne (s3c : aws.S3API) (c : s3.Call) : s3c.record c ≠ s3c := by
  intro h
  have hl := congrArg (fun s => s.calls.length) h
  simp [aws.S3API.record] at hl

theorem validateReleaseSHA_state {α : Type} (r : Release) (s3c : aws.S3API)
    (cRelease : Destination α) (path : String) (hp : r.ReleasePath = some path) :
    ∃ oe, r.validateReleaseSHA s3c cRelease
      = some (oe, s3c.record (s3.Call.get r.Bucket path)) := by
  have hs := s3.GetStruct_snd cRelease.Unmarshal s3c r.Bucket path
  unfold validateReleaseSHA
  rw [hp]
  simp only
  rcases hg : s3.GetStruct cRelease.Unmarshal s3c r.Bucket path with ⟨res, s⟩
  rw [hg] at hs
  simp only at hs
  subst hs
  cases res with
  | error e => exact ⟨_, rfl⟩
  | ok v =>
    simp only
    split
    · exact ⟨_, rfl⟩
    · exact ⟨_, rfl⟩

theorem Validate_cases {α : Type} (r : Release) (now : Time) (s3c : aws.S3API)
    (cRelease : Destination α) :
    (∃ e, r.Validate now s3c cRelease = some (some e, s3c)) ∨
    (is.EmptyStr r.AwsAccountID = false ∧ is.EmptyStr r.ReleaseID = false ∧
      is.EmptyStr r.ProjectName = false ∧ is.EmptyStr r.ConfigName = false ∧
      is.EmptyStr r.Bucket = false ∧
      ∃ path oe, r.ReleasePath = some path ∧
        r.Validate now s3c cRelease = some (oe, s3c.record (s3.Call.get r.Bucket path))) := by
  unfold Validate
  cases h0 : cRelease.isPtr with
  | false => exact Or.inl ⟨_, rfl⟩
  | true =>
  simp only [Bool.not_true, Bool.false_eq_true, if_false]
  cases h1 : is.EmptyStr r.AwsAccountID with
  | true => exact Or.inl ⟨_, rfl⟩
  | false =>
  cases h2 : is.EmptyStr r.AwsRegion with
  | true => exact Or.inl ⟨_, rfl⟩
  | false =>
  cases h3 : is.EmptyStr r.UUID with
  | true => exact Or.inl ⟨_, rfl⟩
  | false =>
  cases h4 : is.EmptyStr r.ReleaseID with
  | true => exact Or.inl ⟨_, rfl⟩
  | false =>
  cases h5 : is.EmptyStr r.ProjectName with
  | true => exact Or.inl ⟨_, rfl⟩
  | false =>
  cases h6 : is.EmptyStr r.ConfigName with
  | true => exact Or.inl ⟨_, rfl⟩
  | false =>
  cases h7 : is.EmptyStr r.Bucket with
  | true => exact Or.inl ⟨_, rfl⟩
  | false =>
  simp only [Bool.false_eq_true, if_false]
  by_cases h8 : r.Timeout = none
  · exact Or.inl ⟨_, by rw [if_pos h8]⟩
  rw [if_neg h8]
  by_cases h9 : r.CreatedAt = none
  · exact Or.inl ⟨_, by rw [if_pos h9]⟩
  rw [if_neg h9]
  by_cases h10 : r.StartedAt = none
  · exact Or.inl ⟨_, by rw [if_pos h10]⟩
  rw [if_neg h10]
  cases h11 : is.WithinTimeFrame now r.CreatedAt (10 * 24 * time.Hour) (2 * time.Minute) with
  | false => exact Or.inl ⟨_, rfl⟩
  | true =>
  simp only [Bool.not_true, Bool.false_eq_true, if_false]
  right
  obtain ⟨a, ha, _⟩ := EmptyStr_false _ h1
  obtain ⟨i, hi, _⟩ := EmptyStr_false _ h4
  obtain ⟨p, hp, _⟩ := EmptyStr_false _ h5
  obtain ⟨c, hc, _⟩ := EmptyStr_false _ h6
  have hpath : r.ReleasePath = some (a ++ "/" ++ p ++ "/" ++ c ++ "/" ++ i ++ "/release") := by
    simp [ReleasePath, ReleaseDir, RootDir, ProjectDir, ha, hp, hc, hi]
  obtain ⟨oe, hoe⟩ := validateReleaseSHA_state r s3c cRelease _ hpath
  refine ⟨trivial, trivial, trivial, trivial, trivial, _, oe, hpath, ?_⟩
  rw [hoe]
  cases oe <;> rfl

/-- Claim C11. `Validate` is total: for every release, whatever fields are nil
or empty, and every destination, it returns nil or an error and never
dereferences a nil field. When one of `AwsAccountID`, `ProjectName`,
`ConfigName`, `ReleaseID`, `Bucket` is nil or empty it returns an error without
consulting the store; whenever the store was consulted, that is the fetch at
`ReleasePath` was reached, the five fields are non-empty and `ReleasePath` is
defined. -/
theorem Validate_total {α : Type} (r : Release) (now : Time) (s3c : aws.S3API)
    (cRelease : Destination α) :
    (∃ oe s', r.Validate now s3c cRelease = some (oe, s')) ∧
    ((is.EmptyStr r.AwsAccountID = true ∨ is.EmptyStr r.ProjectName = true ∨
        is.EmptyStr r.ConfigName = true ∨ is.EmptyStr r.ReleaseID = true ∨
        is.EmptyStr r.Bucket = true) →
      ∃ e, r.Validate now s3c cRelease = some (some e, s3c)) ∧
    (∀ oe s', r.Validate now s3c cRelease = some (oe, s') → s' ≠ s3c →
      is.EmptyStr r.AwsAccountID = false ∧ is.EmptyStr r.ProjectName = false ∧
      is.EmptyStr r.ConfigName = false ∧ is.EmptyStr r.ReleaseID = false ∧
      is.EmptyStr r.Bucket = false ∧
      ∃ path, r.ReleasePath = some path ∧ s' = s3c.record (s3.Call.get r.Bucket path)) := by
  rcases Validate_cases r now s3c cRelease with ⟨e, he⟩ | ⟨h1, h4, h5, h6, h7, path, oe, hp, hv⟩
  · refine ⟨⟨_, _, he⟩, fun _ => ⟨e, he⟩, ?_⟩
    intro oe s' h hne
    rw [he] at h
    simp only [Option.some.injEq, Prod.mk.injEq] at h
    exact absurd h.2.symm hne
  · refine ⟨⟨_, _, hv⟩, ?_, ?_⟩
    · intro h
      simp [h1, h4, h5, h6, h7] at h
    · intro oe' s' h _
      rw [hv] at h
      simp only [Option.some.injEq, Prod.mk.injEq] at h
      exact ⟨h1, h5, h6, h4, h7, path, hp, h.2.symm⟩

end Release

namespace machine

theorem run_next {α : Type} (sm : StateMachine) (handlers : TaskHandlers α) (n : Nat)
    (c c' : Config α) (h : step sm handlers c = Progress.next c') :
    run sm handlers (n + 1) c = run sm handlers n c' := by
  simp only [run, h]

theorem run_done {α : Type} (sm : StateMachine) (handlers : TaskHandlers α) (n : Nat)
    (c c' : Config α) (o : Outcome) (h : step sm handlers c = Progress.done o c') :
    run sm handlers (n + 1) c = (o, c') := by
  simp only [run, h]

end machine

namespace deployer

theorem state_Lock :
    StateMachine.state "Lock" = some (machine.State.TaskFn resource "ValidateResources" []
      [⟨["LockExistsError"], "$.error", "FailureClean"⟩,
        ⟨["States.ALL"], "$.error", "ReleaseLockFailure"⟩]) := rfl

theorem state_Deploy :
    StateMachine.state "Deploy" = some (machine.State.TaskFn resource "Success" []
      [⟨["DeploySFNError"], "$.error", "ReleaseLockFailure"⟩,
        ⟨["States.ALL"], "$.error", "FailureDirty"⟩]) := rfl

theorem state_ReleaseLockFailure :
    StateMachine.state "ReleaseLockFailure" = some (machine.State.TaskFn resource "FailureClean"
      [⟨["States.ALL"], 3, 30⟩] [⟨["States.ALL"], "$.error", "FailureDirty"⟩]) := rfl

theorem state_FailureClean :
    StateMachine.state "FailureClean" = some (machine.State.Fail "NotifyError") := rfl

theorem state_FailureDirty :
    StateMachine.state "FailureDirty" = some (machine.State.Fail "AlertError") := rfl

/-- Claim C12. In the deployer's definition, with catch rules taken in
declaration order by first match, a failure of the `Lock` handler of kind
`LockExistsError` sends the run to the `Fail` state `FailureClean`, where it
ends without `ReleaseLockFailure` being entered, and a failure of any other
kind sends it to the task state `ReleaseLockFailure`; in both cases the error
is written at `$.error`. -/
theorem Lock_catch {α : Type} (handlers : machine.TaskHandlers α) (h : machine.Handler α)
    (c : machine.Config α) (e : machine.HandlerError) (hs : c.state = "Lock")
    (hh : handlers "Lock" = some h) (he : h c.attempt c.payload = Except.error e) :
    (e.Error = "LockExistsError" →
      machine.step StateMachine handlers c = machine.Progress.next
        { state := "FailureClean", counters := [], attempt := 0,
          payload := c.payload.write "$.error" e,
          events := c.events ++ [machine.Event.invoke "Lock" c.attempt,
            machine.Event.caught "Lock" "LockExistsError" "FailureClean"] } ∧
      ∀ n, machine.run StateMachine handlers (n + 2) c =
        (machine.Outcome.failed "NotifyError",
          { state := "FailureClean", counters := [], attempt := 0,
            payload := c.payload.write "$.error" e,
            events := c.events ++ [machine.Event.invoke "Lock" c.attempt,
              machine.Event.caught "Lock" "LockExistsError" "FailureClean"] })) ∧
    (e.Error ≠ "LockExistsError" →
      machine.step StateMachine handlers c = machine.Progress.next
        { state := "ReleaseLockFailure", counters := [], attempt := 0,
          payload := c.payload.write "$.error" e,
          events := c.events ++ [machine.Event.invoke "Lock" c.attempt,
            machine.Event.caught "Lock" e.Error "ReleaseLockFailure"] }) ∧
    StateMachine.state "FailureClean" = some (machine.State.Fail "NotifyError") ∧
    (∃ res next retry catchers, StateMachine.state "ReleaseLockFailure"
      = some (machine.State.TaskFn res next retry catchers)) := by
  obtain ⟨state, counters, attempt, payload, events⟩ := c
  simp only at hs he
  subst hs
  refine ⟨?_, ?_, state_FailureClean, ⟨_, _, _, _, state_ReleaseLockFailure⟩⟩
  · intro hk
    have hstep : machine.step StateMachine handlers ⟨"Lock", counters, attempt, payload, events⟩ =
        machine.Progress.next
          { state := "FailureClean", counters := [], attempt := 0,
            payload := payload.write "$.error" e,
            events := events ++ [machine.Event.invoke "Lock" attempt,
              machine.Event.caught "Lock" "LockExistsError" "FailureClean"] } := by
      simp [machine.step, state_Lock, hh, he, machine.findRetrier, machine.catchError,
        machine.findCatcher, machine.matchesError, hk]
    refine ⟨hstep, ?_⟩
    intro n
    rw [machine.run_next _ _ _ _ _ hstep]
    exact machine.run_done _ _ _ _ _ _ (by simp [machine.step, state_FailureClean])
  · intro hk
    have hk2 : ¬ "LockExistsError" = e.Error := fun h => hk h.symm
    simp [machine.step, state_Lock, hh, he, machine.findRetrier, machine.catchError,
      machine.findCatcher, machine.matchesError, hk2]

/-- Witness of claim C12: lock contention ends the run in `FailureClean`. -/
theorem Lock_catch_witness :
    machine.run StateMachine (Sample.handlersFailing "Lock" ⟨"LockExistsError", "held"⟩) 2
        (machine.Config.start "Lock" ⟨(), []⟩ []) =
      (machine.Outcome.failed "NotifyError",
        { state := "FailureClean", counters := [], attempt := 0,
          payload := (⟨(), []⟩ : machine.Payload Unit).write "$.error" ⟨"LockExistsError", "held"⟩,
          events := [] ++ [machine.Event.invoke "Lock" 0,
            machine.Event.caught "Lock" "LockExistsError" "FailureClean"] }) :=
  ((Lock_catch (Sample.handlersFailing "Lock" ⟨"LockExistsError", "held"⟩)
    (Sample.failing ⟨"LockExistsError", "held"⟩) (machine.Config.start "Lock" ⟨(), []⟩ [])
    ⟨"LockExistsError", "held"⟩ rfl rfl rfl).1 rfl).2 0

end deployer

namespace machine

theorem read_write {α : Type} (p : Payload α) (path : String) (e : HandlerError) :
    (p.write path e).read path = some e := by
  simp [Payload.write, Payload.read, List.lookup]

end machine

namespace deployer

/-- Claim C13, refuted as stated: a `Deploy` failure of kind `DeployLambdaError`
sends the run to `FailureDirty`, not to `ReleaseLockFailure`. -/
theorem Deploy_failure_reaches_FailureDirty :
    (machine.step StateMachine (Sample.handlersFailing "Deploy" ⟨"DeployLambdaError", "boom"⟩)
      (machine.Config.start "Deploy" ⟨(), []⟩ [])).config.state = "FailureDirty" ∧
    "FailureDirty" ≠ "ReleaseLockFailure" :=
  ⟨rfl, by decide⟩

/-- Claim C13, amended. In the deployer's definition a failure of the `Deploy`
handler of kind `DeploySFNError` sends the run to `ReleaseLockFailure`, and a
failure of any other kind sends it to the `Fail` state `FailureDirty`; in both
cases the error kind and cause are written to the payload at `$.error`. -/
theorem Deploy_catch {α : Type} (handlers : machine.TaskHandlers α) (h : machine.Handler α)
    (c : machine.Config α) (e : machine.HandlerError) (hs : c.state = "Deploy")
    (hh : handlers "Deploy" = some h) (he : h c.attempt c.payload = Except.error e) :
    (e.Error = "DeploySFNError" →
      machine.step StateMachine handlers c = machine.Progress.next
        { state := "ReleaseLockFailure", counters := [], attempt := 0,
          payload := c.payload.write "$.error" e,
          events := c.events ++ [machine.Event.invoke "Deploy" c.attempt,
            machine.Event.caught "Deploy" "DeploySFNError" "ReleaseLockFailure"] }) ∧
    (e.Error ≠ "DeploySFNError" →
      machine.step StateMachine handlers c = machine.Progress.next
        { state := "FailureDirty", counters := [], attempt := 0,
          payload := c.payload.write "$.error" e,
          events := c.events ++ [machine.Event.invoke "Deploy" c.attempt,
            machine.Event.caught "Deploy" e.Error "FailureDirty"] }) ∧
    (c.payload.write "$.error" e).read "$.error" = some e ∧
    StateMachine.state "FailureDirty" = some (machine.State.Fail "AlertError") := by
  obtain ⟨state, counters, attempt, payload, events⟩ := c
  simp only at hs he
  subst hs
  refine ⟨?_, ?_, machine.read_write _ _ _, state_FailureDirty⟩
  · intro hk
    simp [machine.step, state_Deploy, hh, he, machine.findRetrier, machine.catchError,
      machine.findCatcher, machine.matchesError, hk]
  · intro hk
    have hk2 : ¬ "DeploySFNError" = e.Error := fun h => hk h.symm
    simp [machine.step, state_Deploy, hh, he, machine.findRetrier, machine.catchError,
      machine.findCatcher, machine.matchesError, hk2]

/-- Witness of claim C13, amended: a `DeploySFNError` leads to `ReleaseLockFailure`. -/
theorem Deploy_catch_witness :
    machine.step StateMachine (Sample.handlersFailing "Deploy" ⟨"DeploySFNError", "boom"⟩)
        (machine.Config.start "Deploy" ⟨(), []⟩ []) =
      machine.Progress.next
        { state := "ReleaseLockFailure", counters := [], attempt := 0,
          payload := (⟨(), []⟩ : machine.Payload Unit).write "$.error" ⟨"DeploySFNError", "boom"⟩,
          events := [] ++ [machine.Event.invoke "Deploy" 0,
            machine.Event.caught "Deploy" "DeploySFNError" "ReleaseLockFailure"] } :=
  (Deploy_catch (Sample.handlersFailing "Deploy" ⟨"DeploySFNError", "boom"⟩)
    (Sample.failing ⟨"DeploySFNError", "boom"⟩) (machine.Config.start "Deploy" ⟨(), []⟩ [])
    ⟨"DeploySFNError", "boom"⟩ rfl rfl rfl).1 rfl

theorem step_ReleaseLockFailure_retry {α : Type} (handlers : machine.TaskHandlers α)
    (h : machine.Handler α) (e : machine.HandlerError) (counters : List (Nat × Nat)) (k : Nat)
    (attempt : Nat) (payload : machine.Payload α) (events : List machine.Event)
    (hh : handlers "ReleaseLockFailure" = some h) (he : h attempt payload = Except.error e)
    (hk : (counters.lookup 0).getD 0 = k) (hn : k + 1 ≤ 3) :
    machine.step StateMachine handlers ⟨"ReleaseLockFailure", counters, attempt, payload, events⟩
      = machine.Progress.next
        { state := "ReleaseLockFailure", counters := (0, k + 1) :: counters,
          attempt := attempt + 1, payload := payload,
          events := events ++ [machine.Event.invoke "ReleaseLockFailure" attempt,
            machine.Event.wait 30] } := by
  subst hk
  simp [machine.step, state_ReleaseLockFailure, hh, he, machine.findRetrier,
    machine.matchesError, List.enum, List.enumFrom, hn]

theorem step_ReleaseLockFailure_exhausted {α : Type} (handlers : machine.TaskHandlers α)
    (h : machine.Handler α) (e : machine.HandlerError) (counters : List (Nat × Nat)) (k : Nat)
    (attempt : Nat) (payload : machine.Payload α) (events : List machine.Event)
    (hh : handlers "ReleaseLockFailure" = some h) (he : h attempt payload = Except.error e)
    (hk : (counters.lookup 0).getD 0 = k) (hn : ¬ k + 1 ≤ 3) :
    machine.step StateMachine handlers ⟨"ReleaseLockFailure", counters, attempt, payload, events⟩
      = machine.Progress.next
        { state := "FailureDirty", counters := [], attempt := 0,
          payload := payload.write "$.error" e,
          events := events ++ [machine.Event.invoke "ReleaseLockFailure" attempt,
            machine.Event.caught "ReleaseLockFailure" e.Error "FailureDirty"] } := by
  subst hk
  simp [machine.step, state_ReleaseLockFailure, hh, he, machine.findRetrier,
    machine.matchesError, List.enum, List.enumFrom, hn, machine.catchError, machine.findCatcher]

/-- Claim C14. In the deployer's definition, if the `ReleaseLockFailure` handler
fails on every invocation, whatever the error kinds, the engine invokes it,
retries it exactly 3 times, waiting 30 seconds before each retry, and then
routes through the catch rule to `FailureDirty`: the run ends as a failure
tagged `AlertError`, with the error of the last invocation written at
`$.error`. -/
theorem ReleaseLockFailure_retries {α : Type} (handlers : machine.TaskHandlers α)
    (h : machine.Handler α) (payload : machine.Payload α) (events : List machine.Event)
    (hh : handlers "ReleaseLockFailure" = some h)
    (hfail : ∀ n p, ∃ e, h n p = Except.error e) :
    ∃ e, h 3 payload = Except.error e ∧
      (payload.write "$.error" e).read "$.error" = some e ∧
      ∀ n, machine.run StateMachine handlers (n + 5)
          (machine.Config.start "ReleaseLockFailure" payload events) =
        (machine.Outcome.failed "AlertError",
          { state := "FailureDirty", counters := [], attempt := 0,
            payload := payload.write "$.error" e,
            events := events ++
              [machine.Event.invoke "ReleaseLockFailure" 0, machine.Event.wait 30,
                machine.Event.invoke "ReleaseLockFailure" 1, machine.Event.wait 30,
                machine.Event.invoke "ReleaseLockFailure" 2, machine.Event.wait 30,
                machine.Event.invoke "ReleaseLockFailure" 3,
                machine.Event.caught "ReleaseLockFailure" e.Error "FailureDirty"] }) := by
  obtain ⟨e0, he0⟩ := hfail 0 payload
  obtain ⟨e1, he1⟩ := hfail 1 payload
  obtain ⟨e2, he2⟩ := hfail 2 payload
  obtain ⟨e3, he3⟩ := hfail 3 payload
  refine ⟨e3, he3, machine.read_write _ _ _, ?_⟩
  intro n
  have s0 := step_ReleaseLockFailure_retry handlers h e0 [] 0 0 payload events hh he0 rfl
    (by decide)
  have s1 := step_ReleaseLockFailure_retry handlers h e1 [(0, 1)] 1 1 payload
    (events ++ [machine.Event.invoke "ReleaseLockFailure" 0, machine.Event.wait 30]) hh he1 rfl
    (by decide)
  have s2 := step_ReleaseLockFailure_retry handlers h e2 [(0, 2), (0, 1)] 2 2 payload
    (events ++ [machine.Event.invoke "ReleaseLockFailure" 0, machine.Event.wait 30] ++
      [machine.Event.invoke "ReleaseLockFailure" 1, machine.Event.wait 30]) hh he2 rfl
    (by decide)
  have s3 := step_ReleaseLockFailure_exhausted handlers h e3 [(0, 3), (0, 2), (0, 1)] 3 3 payload
    (events ++ [machine.Event.invoke "ReleaseLockFailure" 0, machine.Event.wait 30] ++
      [machine.Event.invoke "ReleaseLockFailure" 1, machine.Event.wait 30] ++
      [machine.Event.invoke "ReleaseLockFailure" 2, machine.Event.wait 30]) hh he3 rfl
    (by decide)
  have hrun : n + 5 = n + 1 + 1 + 1 + 1 + 1 := rfl
  rw [hrun, machine.Config.start, machine.run_next _ _ _ _ _ s0, machine.run_next _ _ _ _ _ s1,
    machine.run_next _ _ _ _ _ s2, machine.run_next _ _ _ _ _ s3]
  have s4 : ∀ c : machine.Config α, c.state = "FailureDirty" →
      machine.step StateMachine handlers c
        = machine.Progress.done (machine.Outcome.failed "AlertError") c := by
    intro c hc
    simp [machine.step, hc, state_FailureDirty]
  rw [machine.run_done _ _ n _ _ _ (s4 _ rfl)]
  simp

/-- Witness of claim C14: a handler failing with `Oops` on every invocation. -/
theorem ReleaseLockFailure_retries_witness :
    ∃ e, Sample.failing ⟨"Oops", "cause"⟩ 3 ⟨(), []⟩ = Except.error e ∧
      ((⟨(), []⟩ : machine.Payload Unit).write "$.error" e).read "$.error" = some e ∧
      ∀ n, machine.run StateMachine (Sample.handlersFailing "ReleaseLockFailure" ⟨"Oops", "cause"⟩)
          (n + 5) (machine.Config.start "ReleaseLockFailure" ⟨(), []⟩ []) =
        (machine.Outcome.failed "AlertError",
          { state := "FailureDirty", counters := [], attempt := 0,
            payload := (⟨(), []⟩ : machine.Payload Unit).write "$.error" e,
            events := [] ++
              [machine.Event.invoke "ReleaseLockFailure" 0, machine.Event.wait 30,
                machine.Event.invoke "ReleaseLockFailure" 1, machine.Event.wait 30,
                machine.Event.invoke "ReleaseLockFailure" 2, machine.Event.wait 30,
                machine.Event.invoke "ReleaseLockFailure" 3,
                machine.Event.caught "ReleaseLockFailure" e.Error "FailureDirty"] }) :=
  ReleaseLockFailure_retries (Sample.handlersFailing "ReleaseLockFailure" ⟨"Oops", "cause"⟩)
    (Sample.failing ⟨"Oops", "cause"⟩) ⟨(), []⟩ [] rfl (fun _ _ => ⟨_, rfl⟩)

end deployer

namespace machine

theorem lookup_mem {β : Type} (l : List (String × β)) (k : String) (v : β)
    (h : l.lookup k = some v) : (k, v) ∈ l := by
  induction l with
  | nil => simp at h
  | cons x xs ih =>
    obtain ⟨a, b⟩ := x
    by_cases hk : k = a
    · subst hk
      simp [List.lookup] at h
      simp [h]
    · have hk2 : (k == a) = false := by simp [hk]
      simp only [List.lookup, hk2] at h
      exact List.mem_cons_of_mem _ (ih h)

theorem Edge_mem_edges (sm : StateMachine) (s t : String) (h : sm.Edge s t) :
    (s, t) ∈ sm.edges := by
  unfold StateMachine.Edge StateMachine.successors at h
  cases hs : sm.state s with
  | none => simp [hs] at h
  | some st =>
    rw [hs] at h
    simp only at h
    have hm := lookup_mem sm.States s st hs
    simp only [StateMachine.edges, List.mem_flatMap, List.mem_map]
    exact ⟨(s, st), hm, t, h, rfl⟩

theorem findCatcher_of_last (catchers : List Catcher) (c : Catcher) (kind : String)
    (hl : catchers.getLast? = some c) (hall : "States.ALL" ∈ c.ErrorEquals) :
    ∃ rule, findCatcher catchers kind = some rule := by
  have hm : c ∈ catchers := List.mem_of_getLast?_eq_some hl
  have hmatch : matchesError c.ErrorEquals kind = true := by
    simp only [matchesError, List.any_eq_true]
    exact ⟨"States.ALL", hall, by simp⟩
  cases hf : findCatcher catchers kind with
  | some rule => exact ⟨rule, rfl⟩
  | none =>
    unfold findCatcher at hf
    rw [List.find?_eq_none] at hf
    exact absurd hmatch (hf c hm)

end machine

namespace deployer

theorem edges_forward :
    ∀ e ∈ StateMachine.edges, rank e.1 < rank e.2 ∧ e.2 ∈ StateMachine.names := by
  decide

theorem dead_ends :
    ∀ s ∈ StateMachine.names, StateMachine.successors s = [] → s ∈ terminals := by
  decide

theorem states_catchAll :
    ∀ s ∈ StateMachine.States, s.2.catchesAll = true := by
  decide

theorem rank_le (s : String) : rank s ≤ 5 := by
  unfold rank
  split_ifs <;> omega

end deployer

namespace deployer

theorem Edge_forward (s t : String) (h : StateMachine.Edge s t) :
    rank s < rank t ∧ t ∈ StateMachine.names :=
  edges_forward (s, t) (machine.Edge_mem_edges StateMachine s t h)

theorem TransGen_forward (s t : String) (h : Relation.TransGen StateMachine.Edge s t) :
    rank s < rank t := by
  induction h with
  | single h => exact (Edge_forward _ _ h).1
  | tail _ h ih => exact lt_trans ih (Edge_forward _ _ h).1

theorem chain_bound (p : List String) (hc : p.Chain' StateMachine.Edge) :
    ∀ x, p.head? = some x → p.length + rank x ≤ 6 := by
  induction p with
  | nil => intro x hx; simp at hx
  | cons a rest ih =>
    intro x hx
    simp only [List.head?_cons, Option.some.injEq] at hx
    subst hx
    cases rest with
    | nil =>
      have := rank_le a
      simp only [List.length_singleton]
      omega
    | cons b rest' =>
      rw [List.chain'_cons] at hc
      have h1 := (Edge_forward a b hc.1).1
      have h2 := ih hc.2 b rfl
      simp only [List.length_cons] at h2 ⊢
      omega

theorem chain_last (p : List String) (hc : p.Chain' StateMachine.Edge) :
    ∀ x l, p.head? = some x → p.getLast? = some l → x ∈ StateMachine.names →
      l ∈ StateMachine.names := by
  induction p with
  | nil => intro x l hx; simp at hx
  | cons a rest ih =>
    intro x l hx hl hmem
    simp only [List.head?_cons, Option.some.injEq] at hx
    subst hx
    cases rest with
    | nil =>
      simp only [List.getLast?_singleton, Option.some.injEq] at hl
      subst hl
      exact hmem
    | cons b rest' =>
      rw [List.chain'_cons] at hc
      rw [List.getLast?_cons_cons] at hl
      exact ih hc.2 b l rfl hl (Edge_forward a b hc.1).2

/-- Claim C15. The deployer's definition satisfies the definition invariant:
the start state and every `Next` and catch `Next` name a defined state; the
graph of these edges has no cycle; every path from `Validate` has at most six
states and, when it cannot be extended, ends in `Success`, `FailureClean` or
`FailureDirty`, which are the `Fail` and `Succeed` states; every task state's
catch list ends with a `States.ALL` rule, so that no step of a run ends as an
unhandled failure. -/
theorem StateMachine_invariant :
    (StateMachine.StartAt = "Validate" ∧ StateMachine.StartAt ∈ StateMachine.names) ∧
    (∀ s t, StateMachine.Edge s t → t ∈ StateMachine.names) ∧
    (∀ s, ¬ Relation.TransGen StateMachine.Edge s s) ∧
    (∀ p : List String, p.Chain' StateMachine.Edge → p.head? = some "Validate" →
      p.length ≤ 6 ∧
      ∀ l, p.getLast? = some l → StateMachine.successors l = [] → l ∈ terminals) ∧
    (∀ s ∈ StateMachine.States, s.2.isTerminal = true ↔ s.1 ∈ terminals) ∧
    (∀ name res next retry catchers,
      StateMachine.state name = some (machine.State.TaskFn res next retry catchers) →
      ∃ c, catchers.getLast? = some c ∧ "States.ALL" ∈ c.ErrorEquals) ∧
    (∀ (α : Type) (handlers : machine.TaskHandlers α) (c c' : machine.Config α)
        (o : machine.Outcome),
      machine.step StateMachine handlers c = machine.Progress.done o c' →
      ∀ e, o ≠ machine.Outcome.unhandled e) := by
  have hcatch : ∀ name res next retry catchers,
      StateMachine.state name = some (machine.State.TaskFn res next retry catchers) →
      ∃ c, catchers.getLast? = some c ∧ "States.ALL" ∈ c.ErrorEquals := by
    intro name res next retry catchers hs
    have hm := machine.lookup_mem StateMachine.States name _ hs
    have hall := states_catchAll _ hm
    simp only [machine.State.catchesAll] at hall
    cases hl : catchers.getLast? with
    | none => simp [hl] at hall
    | some c =>
      rw [hl] at hall
      exact ⟨c, rfl, by simpa using hall⟩
  refine ⟨⟨rfl, by decide⟩, fun s t h => (Edge_forward s t h).2, ?_, ?_, by decide, hcatch, ?_⟩
  · intro s h
    exact lt_irrefl _ (TransGen_forward s s h)
  · intro p hc hh
    refine ⟨?_, ?_⟩
    · have := chain_bound p hc "Validate" hh
      omega
    · intro l hl hs
      exact dead_ends l (chain_last p hc "Validate" l hh hl (by decide)) hs
  · intro α handlers c c' o hstep e ho
    subst ho
    unfold machine.step at hstep
    cases hs : StateMachine.state c.state with
    | none => simp [hs] at hstep
    | some st =>
      rw [hs] at hstep
      cases st with
      | Succeed => simp at hstep
      | Fail tag => simp at hstep
      | TaskFn res next retry catchers =>
        obtain ⟨cl, hcl, hall⟩ := hcatch _ _ _ _ _ hs
        have hcatchErr : ∀ e', machine.catchError c catchers e'
            ≠ machine.Progress.done (machine.Outcome.unhandled e) c' := by
          intro e' hce
          obtain ⟨rule, hrule⟩ := machine.findCatcher_of_last catchers cl e'.Error hcl hall
          simp [machine.catchError, hrule] at hce
        simp only at hstep
        cases hh : handlers c.state with
        | none => simp [hh] at hstep
        | some h =>
          rw [hh] at hstep
          simp only at hstep
          cases hr : h c.attempt c.payload with
          | ok p => simp [hr] at hstep
          | error e' =>
            rw [hr] at hstep
            simp only at hstep
            cases hf : machine.findRetrier retry e'.Error with
            | none =>
              rw [hf] at hstep
              exact hcatchErr e' hstep
            | some ir =>
              obtain ⟨i, rule⟩ := ir
              rw [hf] at hstep
              simp only at hstep
              split_ifs at hstep
              exact hcatchErr e' hstep

end deployer

namespace Release

theorem SetDefaults_eq (r : Release) (now : Time) (TimeUUID : String → String)
    (region account : Option String) ( bucket_prefix : String) :
    r.SetDefaults now TimeUUID region account bucket_prefix =
      { r with
        UUID := if is.EmptyStr r.UUID then some (TimeUUID "release-") else r.UUID
        StartedAt := if r.StartedAt = none then some now else r.StartedAt
        AwsRegion := if is.EmptyStr r.AwsRegion then region else r.AwsRegion
        AwsAccountID := if is.EmptyStr r.AwsAccountID then account else r.AwsAccountID
        Bucket :=
          match is.EmptyStr r.Bucket, account with
          | true, some a => some ( bucket_prefix ++ a)
          | _, _ => r.Bucket
        Timeout := if r.Timeout = none then some 600 else r.Timeout } := by
  obtain ⟨a1, a2, a3, a4, a5, a6, a7, a8, a9, a10, a11, a12, a13, a14⟩ := r
  unfold SetDefaults
  cases h1 : is.EmptyStr a4 <;> simp only [h1, Bool.false_eq_true, if_true, if_false] <;>
  cases a10 <;> simp only [if_true, if_false, reduceCtorEq] <;>
  cases h3 : is.EmptyStr a2 <;> simp only [h3, Bool.false_eq_true, if_true, if_false] <;>
  cases h4 : is.EmptyStr a1 <;> simp only [h4, Bool.false_eq_true, if_true, if_false] <;>
  cases h5 : is.EmptyStr a8 <;> cases account <;> simp only [h5] <;>
  cases a11 <;> simp only [if_true, if_false, reduceCtorEq]

/-- Claim C16. `SetDefaults` never overwrites a caller-supplied value: each of
`UUID`, `AwsRegion`, `AwsAccountID`, `Bucket` that is non-nil and non-empty,
and each of `StartedAt`, `Timeout` that is non-nil, keeps its value, and every
other field of the release is unchanged. -/
theorem SetDefaults_frame (r : Release) (now : Time) (TimeUUID : String → String)
    (region account : Option String) ( bucket_prefix : String) :
    (is.EmptyStr r.UUID = false →
      (r.SetDefaults now TimeUUID region account bucket_prefix).UUID = r.UUID) ∧
    (r.StartedAt ≠ none →
      (r.SetDefaults now TimeUUID region account bucket_prefix).StartedAt = r.StartedAt) ∧
    (is.EmptyStr r.AwsRegion = false →
      (r.SetDefaults now TimeUUID region account bucket_prefix).AwsRegion = r.AwsRegion) ∧
    (is.EmptyStr r.AwsAccountID = false →
      (r.SetDefaults now TimeUUID region account bucket_prefix).AwsAccountID
        = r.AwsAccountID) ∧
    (is.EmptyStr r.Bucket = false →
      (r.SetDefaults now TimeUUID region account bucket_prefix).Bucket = r.Bucket) ∧
    (r.Timeout ≠ none →
      (r.SetDefaults now TimeUUID region account bucket_prefix).Timeout = r.Timeout) ∧
    (r.SetDefaults now TimeUUID region account bucket_prefix).ReleaseID = r.ReleaseID ∧
    (r.SetDefaults now TimeUUID region account bucket_prefix).ProjectName = r.ProjectName ∧
    (r.SetDefaults now TimeUUID region account bucket_prefix).ConfigName = r.ConfigName ∧
    (r.SetDefaults now TimeUUID region account bucket_prefix).CreatedAt = r.CreatedAt ∧
    (r.SetDefaults now TimeUUID region account bucket_prefix).Metadata = r.Metadata ∧
    (r.SetDefaults now TimeUUID region account bucket_prefix).Error = r.Error ∧
    (r.SetDefaults now TimeUUID region account bucket_prefix).Success = r.Success ∧
    (r.SetDefaults now TimeUUID region account bucket_prefix).ReleaseSHA256
      = r.ReleaseSHA256 := by
  rw [SetDefaults_eq]
  refine ⟨?_, ?_, ?_, ?_, ?_, ?_, rfl, rfl, rfl, rfl, rfl, rfl, rfl, rfl⟩
  · intro h
    simp [h]
  · intro h
    simp [h]
  · intro h
    simp [h]
  · intro h
    simp [h]
  · intro h
    simp [h]
  · intro h
    simp [h]

/-- Claim C17. For a release whose `Bucket` is unset (nil or empty) and a
non-nil account argument, after `SetDefaults` the bucket is the bucket prefix
followed by the account argument, whatever `AwsAccountID` the release carries;
and for a release whose `Timeout` is unset, the timeout is 600 afterwards. -/
theorem SetDefaults_bucket_timeout (r : Release) (now : Time) (TimeUUID : String → String)
    (region account : Option String) (a : String) ( bucket_prefix : String) :
    (is.EmptyStr r.Bucket = true →
      (r.SetDefaults now TimeUUID region (some a) bucket_prefix).Bucket
        = some ( bucket_prefix ++ a)) ∧
    (r.Timeout = none →
      (r.SetDefaults now TimeUUID region account bucket_prefix).Timeout = some 600) := by
  rw [SetDefaults_eq, SetDefaults_eq]
  constructor
  · intro h
    simp [h]
  · intro h
    simp [h]

/-- Claim C18. `WipeControlledValues` sets `UUID`, `StartedAt` and `Success` to
nil and leaves every other field unchanged; so two releases that agree on every
other field are equal after it, and whatever is computed from the wiped release
is the same for both. -/
theorem WipeControlledValues_frame (r : Release) :
    (r.WipeControlledValues.UUID = none ∧ r.WipeControlledValues.StartedAt = none ∧
      r.WipeControlledValues.Success = none) ∧
    (r.WipeControlledValues.AwsAccountID = r.AwsAccountID ∧
      r.WipeControlledValues.AwsRegion = r.AwsRegion ∧
      r.WipeControlledValues.ReleaseSHA256 = r.ReleaseSHA256 ∧
      r.WipeControlledValues.ReleaseID = r.ReleaseID ∧
      r.WipeControlledValues.ProjectName = r.ProjectName ∧
      r.WipeControlledValues.ConfigName = r.ConfigName ∧
      r.WipeControlledValues.Bucket = r.Bucket ∧
      r.WipeControlledValues.CreatedAt = r.CreatedAt ∧
      r.WipeControlledValues.Timeout = r.Timeout ∧
      r.WipeControlledValues.Metadata = r.Metadata ∧
      r.WipeControlledValues.Error = r.Error) ∧
    (∀ (uuid : Option String) (started : Option Time) (success : Option Bool),
      ({ r with UUID := uuid, StartedAt := started, Success := success } :
        Release).WipeControlledValues = r.WipeControlledValues) ∧
    (∀ r2 : Release, r2.AwsAccountID = r.AwsAccountID → r2.AwsRegion = r.AwsRegion →
      r2.ReleaseSHA256 = r.ReleaseSHA256 → r2.ReleaseID = r.ReleaseID →
      r2.ProjectName = r.ProjectName → r2.ConfigName = r.ConfigName → r2.Bucket = r.Bucket →
      r2.CreatedAt = r.CreatedAt → r2.Timeout = r.Timeout → r2.Metadata = r.Metadata →
      r2.Error = r.Error →
      r2.WipeControlledValues = r.WipeControlledValues ∧
      ∀ (β : Type) (f : Release → β), f r2.WipeControlledValues = f r.WipeControlledValues) := by
  refine ⟨⟨rfl, rfl, rfl⟩, ⟨rfl, rfl, rfl, rfl, rfl, rfl, rfl, rfl, rfl, rfl, rfl⟩,
    fun _ _ _ => rfl, ?_⟩
  intro r2 h1 h2 h3 h4 h5 h6 h7 h8 h9 h10 h11
  have heq : r2.WipeControlledValues = r.WipeControlledValues := by
    obtain ⟨a1, a2, a3, a4, a5, a6, a7, a8, a9, a10, a11, a12, a13, a14⟩ := r
    obtain ⟨b1, b2, b3, b4, b5, b6, b7, b8, b9, b10, b11, b12, b13, b14⟩ := r2
    simp only at h1 h2 h3 h4 h5 h6 h7 h8 h9 h10 h11
    subst h1 h2 h3 h4 h5 h6 h7 h8 h9 h10 h11
    rfl
  exact ⟨heq, fun β f => by rw [heq]⟩

end Release

namespace Release

/-- Claim C19. For a release with account `a`, project `p`, config `c` and
release id `i` set, the paths are `a/p/c/i/release`, `a/p/c/i/lock`,
`a/p/c/i/log`, `a/p/c/lock`, `a/p/c/user-lock`, `a/p/c/halt` and `a/p/_shared`;
a release with the same four fields has the same paths; and `ProjectDir` is a
prefix of `RootDir`, which is a prefix of `ReleaseDir`, which is a prefix of
the three release-scoped object paths. -/
theorem paths_layout (r : Release) (a p c i : String) (ha : r.AwsAccountID = some a)
    (hp : r.ProjectName = some p) (hc : r.ConfigName = some c) (hi : r.ReleaseID = some i) :
    (r.ReleasePath = some (a ++ "/" ++ p ++ "/" ++ c ++ "/" ++ i ++ "/release") ∧
      r.ReleaseLockPath = some (a ++ "/" ++ p ++ "/" ++ c ++ "/" ++ i ++ "/lock") ∧
      r.LogPath = some (a ++ "/" ++ p ++ "/" ++ c ++ "/" ++ i ++ "/log") ∧
      r.RootLockPath = some (a ++ "/" ++ p ++ "/" ++ c ++ "/lock") ∧
      r.UserLockPath = some (a ++ "/" ++ p ++ "/" ++ c ++ "/user-lock") ∧
      r.HaltPath = some (a ++ "/" ++ p ++ "/" ++ c ++ "/halt") ∧
      r.SharedProjectDir = some (a ++ "/" ++ p ++ "/_shared")) ∧
    (∀ r2 : Release, r2.AwsAccountID = some a → r2.ProjectName = some p →
      r2.ConfigName = some c → r2.ReleaseID = some i →
      r2.ReleasePath = r.ReleasePath ∧ r2.ReleaseLockPath = r.ReleaseLockPath ∧
      r2.LogPath = r.LogPath ∧ r2.RootLockPath = r.RootLockPath ∧
      r2.UserLockPath = r.UserLockPath ∧ r2.HaltPath = r.HaltPath ∧
      r2.SharedProjectDir = r.SharedProjectDir) ∧
    (∃ projectDir rootDir releaseDir, r.ProjectDir = some projectDir ∧
      r.RootDir = some rootDir ∧ r.ReleaseDir = some releaseDir ∧
      (∃ rest, rootDir = projectDir ++ rest) ∧ (∃ rest, releaseDir = rootDir ++ rest) ∧
      r.ReleasePath = some (releaseDir ++ "/release") ∧
      r.ReleaseLockPath = some (releaseDir ++ "/lock") ∧
      r.LogPath = some (releaseDir ++ "/log")) := by
  have hpd : r.ProjectDir = some (a ++ "/" ++ p) := by simp [ProjectDir, ha, hp]
  have hrd : r.RootDir = some (a ++ "/" ++ p ++ "/" ++ c) := by simp [RootDir, hpd, hc]
  have hld : r.ReleaseDir = some (a ++ "/" ++ p ++ "/" ++ c ++ "/" ++ i) := by
    simp [ReleaseDir, hrd, hi]
  have hall : ∀ r2 : Release, r2.AwsAccountID = some a → r2.ProjectName = some p →
      r2.ConfigName = some c → r2.ReleaseID = some i →
      r2.ReleasePath = some (a ++ "/" ++ p ++ "/" ++ c ++ "/" ++ i ++ "/release") ∧
      r2.ReleaseLockPath = some (a ++ "/" ++ p ++ "/" ++ c ++ "/" ++ i ++ "/lock") ∧
      r2.LogPath = some (a ++ "/" ++ p ++ "/" ++ c ++ "/" ++ i ++ "/log") ∧
      r2.RootLockPath = some (a ++ "/" ++ p ++ "/" ++ c ++ "/lock") ∧
      r2.UserLockPath = some (a ++ "/" ++ p ++ "/" ++ c ++ "/user-lock") ∧
      r2.HaltPath = some (a ++ "/" ++ p ++ "/" ++ c ++ "/halt") ∧
      r2.SharedProjectDir = some (a ++ "/" ++ p ++ "/_shared") := by
    intro r2 h1 h2 h3 h4
    simp [ReleasePath, ReleaseLockPath, LogPath, RootLockPath, UserLockPath, HaltPath,
      SharedProjectDir, ReleaseDir, RootDir, ProjectDir, h1, h2, h3, h4]
  obtain ⟨q1, q2, q3, q4, q5, q6, q7⟩ := hall r ha hp hc hi
  refine ⟨⟨q1, q2, q3, q4, q5, q6, q7⟩, ?_, ?_⟩
  · intro r2 h1 h2 h3 h4
    obtain ⟨s1, s2, s3, s4, s5, s6, s7⟩ := hall r2 h1 h2 h3 h4
    exact ⟨s1.trans q1.symm, s2.trans q2.symm, s3.trans q3.symm, s4.trans q4.symm,
      s5.trans q5.symm, s6.trans q6.symm, s7.trans q7.symm⟩
  · exact ⟨_, _, _, hpd, hrd, hld, ⟨"/" ++ c, by simp [String.append_assoc]⟩,
      ⟨"/" ++ i, by simp [String.append_assoc]⟩, q1, q2, q3⟩

/-- Witness of claim C19: the paths of the sample release. -/
theorem paths_layout_witness :
    Sample.release.ReleasePath = some "00000000/project/development/release-1/release" ∧
    Sample.release.HaltPath = some "00000000/project/development/halt" :=
  ⟨(paths_layout Sample.release "00000000" "project" "development" "release-1"
      rfl rfl rfl rfl).1.1,
    (paths_layout Sample.release "00000000" "project" "development" "release-1"
      rfl rfl rfl rfl).1.2.2.2.2.2.1⟩

theorem int64_of_range (x : Int) (h1 : -9223372036854775808 ≤ x)
    (h2 : x < 9223372036854775808) : int64 x = x := by
  unfold int64
  norm_num
  omega

/-- Claim C20, refuted as stated: started at time 0 with a timeout of
18446744074 seconds, one second later `TimedOut` already returns the timeout
error, although one second is not later than the start plus the timeout. -/
theorem TimedOut_wraps :
    (Sample.longTimeout.TimedOut 1000000000).map Prod.fst
      = some (some (Err.Errorf "Timeout: Halting Release")) ∧
    ¬ ((1000000000 : Int) > 0 + 18446744074 * 1000000000) ∧
    (-9223372036854775808 ≤ (18446744074 : Int) ∧ (18446744074 : Int) < 9223372036854775808) := by
  refine ⟨?_, by norm_num, by norm_num⟩
  simp [TimedOut, Sample.longTimeout, Sample.release, int64, time.Second]

/-- Claim C20, amended. For a timeout of `t` seconds whose product with
`time.Second` fits in 64 bits, `TimedOut` returns the timeout error exactly when
`now` is strictly later than the start time plus `t` seconds, and nil otherwise;
a start time that is set is left unchanged, and one that is unset is stamped
with `now`, the same rule being applied from `now`. -/
theorem TimedOut_rule (r : Release) (now : Time) (t : Int) (ht : r.Timeout = some t)
    (hlo : -9223372036854775808 ≤ 1000000000 * t)
    (hhi : 1000000000 * t < 9223372036854775808) :
    (∀ started, r.StartedAt = some started →
      r.TimedOut now =
        some (if now > started + 1000000000 * t
          then some (Err.Errorf "Timeout: Halting Release") else none, r)) ∧
    (r.StartedAt = none →
      r.TimedOut now =
        some (if now > now + 1000000000 * t
          then some (Err.Errorf "Timeout: Halting Release") else none,
          { r with StartedAt := some now })) := by
  have hw : int64 (time.Second * t) = 1000000000 * t := by
    unfold time.Second
    exact int64_of_range _ hlo hhi
  obtain ⟨a1, a2, a3, a4, a5, a6, a7, a8, a9, a10, a11, a12, a13, a14⟩ := r
  simp only at ht
  subst ht
  constructor
  · intro started hs
    simp only at hs
    subst hs
    simp only [TimedOut, reduceCtorEq, if_false]
    rw [hw]
    split_ifs <;> rfl
  · intro hs
    simp only at hs
    subst hs
    simp only [TimedOut, if_true]
    rw [hw]
    split_ifs <;> rfl

/-- Witness of claim C20, amended: ten minutes of timeout, eleven minutes later. -/
theorem TimedOut_rule_witness :
    Sample.release.TimedOut 660000000000 =
      some (if (660000000000 : Int) > 0 + 1000000000 * 600
        then some (Err.Errorf "Timeout: Halting Release") else none, Sample.release) :=
  (TimedOut_rule Sample.release 660000000000 600 rfl (by decide) (by decide)).1 0 rfl

end Release

namespace Release

theorem TimedOut_frame (r r1 : Release) (now : Time) (oe : Option Err)
    (h : r.TimedOut now = some (oe, r1)) :
    r1.Bucket = r.Bucket ∧ r1.HaltPath = r.HaltPath := by
  obtain ⟨a1, a2, a3, a4, a5, a6, a7, a8, a9, a10, a11, a12, a13, a14⟩ := r
  cases a11 with
  | none => cases a10 <;> simp [TimedOut] at h
  | some t =>
    cases a10 with
    | none =>
      simp only [TimedOut, if_true] at h
      split_ifs at h <;>
        (simp only [Option.some.injEq, Prod.mk.injEq] at h
         rw [← h.2]
         exact ⟨rfl, rfl⟩)
    | some started =>
      simp only [TimedOut, reduceCtorEq, if_false] at h
      split_ifs at h <;>
        (simp only [Option.some.injEq, Prod.mk.injEq] at h
         rw [← h.2]
         exact ⟨rfl, rfl⟩)

theorem WithinTimeFrame_iff (now t : Time) (back forward : Duration) :
    is.WithinTimeFrame now (some t) back forward = true ↔
      (now - back ≤ t ∧ t ≤ now + forward) := by
  simp [is.WithinTimeFrame]

theorem haltFlag_active (r : Release) (now : Time) (s3c : aws.S3API) (path : String)
    (hp : r.HaltPath = some path) (ha : r.HaltActive now s3c path) :
    ∃ message, r.haltFlag now s3c
      = some (some message, s3c.record (s3.Call.get r.Bucket path)) := by
  obtain ⟨bucket, o, hb, hf, h1, h2⟩ := ha
  have hw := (WithinTimeFrame_iff now o.lastModified (5 * time.Minute) (2 * time.Minute)).mpr
    ⟨h1, h2⟩
  exact ⟨o.body, by
    simp [haltFlag, hp, hb, s3.GetObject, s3.Get, hf, hw]⟩

theorem haltFlag_inactive (r : Release) (now : Time) (s3c : aws.S3API) (path : String)
    (hp : r.HaltPath = some path) (ha : ¬ r.HaltActive now s3c path) :
    r.haltFlag now s3c = some (none, s3c.record (s3.Call.get r.Bucket path)) := by
  cases hb : r.Bucket with
  | none => simp [haltFlag, hp, hb, s3.GetObject, s3.Get]
  | some bucket =>
    cases hf : s3c.find bucket path with
    | none => simp [haltFlag, hp, hb, s3.GetObject, s3.Get, hf]
    | some entry =>
      cases entry with
      | unreadable msg => simp [haltFlag, hp, hb, s3.GetObject, s3.Get, hf]
      | object o =>
        have hw : is.WithinTimeFrame now (some o.lastModified) (5 * time.Minute)
            (2 * time.Minute) = false := by
          cases hwt : is.WithinTimeFrame now (some o.lastModified) (5 * time.Minute)
            (2 * time.Minute) with
          | false => rfl
          | true =>
            have := (WithinTimeFrame_iff _ _ _ _).mp hwt
            exact absurd ⟨bucket, o, hb, hf, this.1, this.2⟩ ha
        simp [haltFlag, hp, hb, s3.GetObject, s3.Get, hf, hw]

theorem TimedOut_elapsed (r : Release) (now : Time) (t : Int) (ht : r.Timeout = some t)
    (hlo : -9223372036854775808 ≤ 1000000000 * t)
    (hhi : 1000000000 * t < 9223372036854775808) (he : r.TimeoutElapsed now) :
    r.TimedOut now = some (some (Err.Errorf "Timeout: Halting Release"), r.stamped now) := by
  have hw : int64 (time.Second * t) = 1000000000 * t := by
    unfold time.Second
    exact int64_of_range _ hlo hhi
  obtain ⟨a1, a2, a3, a4, a5, a6, a7, a8, a9, a10, a11, a12, a13, a14⟩ := r
  simp only at ht
  subst ht
  cases a10 with
  | none =>
    simp only [TimeoutElapsed, Option.getD_none] at he
    simp only [TimedOut, if_true, stamped]
    rw [hw, if_pos he]
  | some started =>
    simp only [TimeoutElapsed, Option.getD_some] at he
    simp only [TimedOut, reduceCtorEq, if_false, stamped]
    rw [hw, if_pos he]

theorem TimedOut_not_elapsed (r : Release) (now : Time) (t : Int) (ht : r.Timeout = some t)
    (hlo : -9223372036854775808 ≤ 1000000000 * t)
    (hhi : 1000000000 * t < 9223372036854775808) (he : ¬ r.TimeoutElapsed now) :
    r.TimedOut now = some (none, r.stamped now) := by
  have hw : int64 (time.Second * t) = 1000000000 * t := by
    unfold time.Second
    exact int64_of_range _ hlo hhi
  obtain ⟨a1, a2, a3, a4, a5, a6, a7, a8, a9, a10, a11, a12, a13, a14⟩ := r
  simp only at ht
  subst ht
  cases a10 with
  | none =>
    simp only [TimeoutElapsed, Option.getD_none] at he
    simp only [TimedOut, if_true, stamped]
    rw [hw, if_neg he]
  | some started =>
    simp only [TimeoutElapsed, Option.getD_some] at he
    simp only [TimedOut, reduceCtorEq, if_false, stamped]
    rw [hw, if_neg he]

theorem haltFlag_object (r : Release) (now : Time) (s3c : aws.S3API) (bucket path : String)
    (o : s3.Object) (hp : r.HaltPath = some path) (hb : r.Bucket = some bucket)
    (hf : s3c.find bucket path = some (s3.Entry.object o))
    (ha : r.HaltActive now s3c path) :
    r.haltFlag now s3c = some (some o.body, s3c.record (s3.Call.get r.Bucket path)) := by
  obtain ⟨bucket2, o2, hb2, hf2, h1, h2⟩ := ha
  rw [hb] at hb2
  cases hb2
  rw [hf] at hf2
  cases hf2
  have hw := (WithinTimeFrame_iff now o.lastModified (5 * time.Minute) (2 * time.Minute)).mpr
    ⟨h1, h2⟩
  simp [haltFlag, hp, hb, s3.GetObject, s3.Get, hf, hw]

/-- Claim C21, refuted as stated: started at time 0 with a timeout of
18446744074 seconds, one second later the release has not timed out and the
store holds no halt object, yet `IsHalt` returns an error, the timeout error. -/
theorem IsHalt_timeout_without_elapse :
    Sample.longTimeout.IsHalt Sample.plainFormat 1000000000 Sample.emptyStore
      = some (some (Err.Errorf "Timeout: Halting Release"), Sample.longTimeout,
          Sample.emptyStore) ∧
    ¬ ((1000000000 : Int) > 0 + 18446744074 * 1000000000) ∧
    Sample.longTimeout.StartedAt = some 0 ∧ Sample.longTimeout.Timeout = some 18446744074 ∧
    Sample.longTimeout.Bucket = some "bucket" ∧
    Sample.longTimeout.HaltPath = some "00000000/project/development/halt" ∧
    Sample.emptyStore.find "bucket" "00000000/project/development/halt" = none := by
  refine ⟨?_, by norm_num, rfl, rfl, rfl, rfl, rfl⟩
  simp [IsHalt, TimedOut, Sample.longTimeout, Sample.release, int64, time.Second]

/-- Claim C21, amended. For a release whose timeout in seconds, multiplied by
`time.Second`, fits in 64 bits: when the release has timed out (`now` is
strictly later than the start time, or `now` itself when unset, plus the
timeout), `IsHalt` returns the timeout error without consulting the store; when
it has not, `IsHalt` returns an error exactly when the object at `HaltPath` can
be read and its last-modified time is not older than 5 minutes before `now` and
not later than 2 minutes after it, the error text being what `fmt` makes of the
flag's message, or of `Halt File Found` when the message is empty; a missing
object, any other read failure, or a last-modified time outside that window
yields nil. One read is then issued and nothing is written. -/
theorem IsHalt_rule (r : Release) (Sprintf : String → String) (now : Time) (s3c : aws.S3API)
    (t : Int) (ht : r.Timeout = some t) (hlo : -9223372036854775808 ≤ 1000000000 * t)
    (hhi : 1000000000 * t < 9223372036854775808) :
    (r.TimeoutElapsed now →
      r.IsHalt Sprintf now s3c
        = some (some (Err.Errorf "Timeout: Halting Release"), r.stamped now, s3c)) ∧
    (¬ r.TimeoutElapsed now → ∀ path, r.HaltPath = some path →
      ((∃ e, r.IsHalt Sprintf now s3c
          = some (some e, r.stamped now, s3c.record (s3.Call.get r.Bucket path))) ↔
        r.HaltActive now s3c path) ∧
      (∀ bucket o, r.Bucket = some bucket →
        s3c.find bucket path = some (s3.Entry.object o) → r.HaltActive now s3c path →
        r.IsHalt Sprintf now s3c
          = some (some (Err.Errorf (Sprintf (if o.body = "" then "Halt File Found" else o.body))),
              r.stamped now, s3c.record (s3.Call.get r.Bucket path))) ∧
      (¬ r.HaltActive now s3c path →
        r.IsHalt Sprintf now s3c
          = some (none, r.stamped now, s3c.record (s3.Call.get r.Bucket path)))) := by
  constructor
  · intro he
    simp [IsHalt, TimedOut_elapsed r now t ht hlo hhi he]
  · intro he path hp
    have hto := TimedOut_not_elapsed r now t ht hlo hhi he
    obtain ⟨hb1, hp1⟩ := TimedOut_frame r (r.stamped now) now none hto
    have hp1' : (r.stamped now).HaltPath = some path := hp1.trans hp
    have hact : (r.stamped now).HaltActive now s3c path ↔ r.HaltActive now s3c path := by
      simp [HaltActive, hb1]
    have hinactive : ¬ r.HaltActive now s3c path →
        r.IsHalt Sprintf now s3c
          = some (none, r.stamped now, s3c.record (s3.Call.get r.Bucket path)) := by
      intro ha
      have hf := haltFlag_inactive (r.stamped now) now s3c path hp1' (fun h => ha (hact.mp h))
      simp [IsHalt, hto, hf, hb1]
    have hobject : ∀ bucket o, r.Bucket = some bucket →
        s3c.find bucket path = some (s3.Entry.object o) → r.HaltActive now s3c path →
        r.IsHalt Sprintf now s3c
          = some (some (Err.Errorf (Sprintf (if o.body = "" then "Halt File Found" else o.body))),
              r.stamped now, s3c.record (s3.Call.get r.Bucket path)) := by
      intro bucket o hb hf ha
      have hm := haltFlag_object (r.stamped now) now s3c bucket path o hp1' (hb1.trans hb) hf
        (hact.mpr ha)
      by_cases hempty : o.body = ""
      · simp [IsHalt, hto, hm, hempty, hb1]
      · simp [IsHalt, hto, hm, hempty, hb1]
    refine ⟨⟨?_, ?_⟩, hobject, hinactive⟩
    · rintro ⟨e, he2⟩
      by_contra ha
      rw [hinactive ha] at he2
      simp at he2
    · intro ha
      obtain ⟨bucket, o, hb, hf, _, _⟩ := id ha
      exact ⟨_, hobject bucket o hb hf ha⟩

/-- Witness of claim C21, amended: a halt flag written one minute before `now`
stops the release, which has not timed out. -/
theorem IsHalt_rule_witness :
    Sample.release.Timeout = some 600 ∧ ¬ Sample.release.TimeoutElapsed 60000000000 ∧
    Sample.release.HaltActive 60000000000 Sample.haltedStore
      "00000000/project/development/halt" ∧
    Sample.release.IsHalt Sample.plainFormat 60000000000 Sample.haltedStore =
      some (some (Err.Errorf (Sample.plainFormat
          (if (⟨"stop", 0⟩ : s3.Object).body = "" then "Halt File Found"
            else (⟨"stop", 0⟩ : s3.Object).body))),
        Sample.release.stamped 60000000000,
        Sample.haltedStore.record
          (s3.Call.get Sample.release.Bucket "00000000/project/development/halt")) := by
  have hne : ¬ Sample.release.TimeoutElapsed 60000000000 := by
    simp [TimeoutElapsed, Sample.release]
  have hact : Sample.release.HaltActive 60000000000 Sample.haltedStore
      "00000000/project/development/halt" :=
    ⟨"bucket", ⟨"stop", 0⟩, rfl, rfl, by decide, by decide⟩
  exact ⟨rfl, hne, hact,
    ((IsHalt_rule Sample.release Sample.plainFormat 60000000000 Sample.haltedStore 600 rfl
      (by decide) (by decide)).2 hne "00000000/project/development/halt" rfl).2.1
      "bucket" ⟨"stop", 0⟩ rfl rfl hact⟩

end Release

namespace s3

theorem GetStr_snd (s3c : aws.S3API) (bucket : Option String) (path : String) :
    (GetStr s3c bucket path).2 = s3c.record (Call.get bucket path) := by
  have h := Get_snd s3c bucket path
  unfold GetStr
  rcases hg : Get s3c bucket path with ⟨res, s⟩
  rw [hg] at h
  simp only at h
  subst h
  cases res <;> rfl

theorem Put_none_find (s : aws.S3API) (bucket : Option String) (path body : String)
    (h : (Put s bucket path body).1 = none) :
    ∃ b, bucket = some b ∧
      (Put s bucket path body).2.find b path = some (Entry.object ⟨body, s.clock⟩) := by
  cases bucket with
  | none => simp [Put] at h
  | some b =>
    refine ⟨b, rfl, ?_⟩
    cases hw : s.putErr.lookup (b, path) with
    | some msg => simp [Put, hw] at h
    | none =>
      rw [Put_ok s b path body hw]
      simp [aws.S3API.find, List.lookup]

end s3

namespace Release

/-- Claim C22. If reading the log object succeeds with content `old`, or fails
with not-found (`old` then being empty), `AppendLog` returns what the write of
`old`, a newline and the line returns, and when that is nil the log object
holds exactly that text, so what was logged before is kept, in order, in front
of the new line. If the read fails with any other error, `AppendLog` returns
that error and leaves the store as it was, only the read having been issued. -/
theorem AppendLog_rule (r : Release) (s3c : aws.S3API) (log path : String)
    (hp : r.LogPath = some path) :
    (∀ old, ((s3.GetStr s3c r.Bucket path).1 = Except.ok (some old) ∨
        (old = "" ∧ ∃ msg, (s3.GetStr s3c r.Bucket path).1
          = Except.error (Err.NotFoundError msg))) →
      r.AppendLog s3c log = some (s3.PutStr (s3c.record (s3.Call.get r.Bucket path)) r.Bucket
        path (old ++ "\n" ++ log)) ∧
      ∀ s', r.AppendLog s3c log = some (none, s') →
        ∃ bucket o, r.Bucket = some bucket ∧ s'.find bucket path = some (s3.Entry.object o) ∧
          o.body = old ++ "\n" ++ log) ∧
    (∀ err, (s3.GetStr s3c r.Bucket path).1 = Except.error err → err.isNotFoundError = false →
      r.AppendLog s3c log = some (some err, s3c.record (s3.Call.get r.Bucket path)) ∧
      (s3c.record (s3.Call.get r.Bucket path)).entries = s3c.entries ∧
      (s3c.record (s3.Call.get r.Bucket path)).calls.filter s3.Call.isWrite
        = s3c.calls.filter s3.Call.isWrite) := by
  have hs := s3.GetStr_snd s3c r.Bucket path
  constructor
  · intro old hold
    have hval : r.AppendLog s3c log = some (s3.PutStr (s3c.record (s3.Call.get r.Bucket path))
        r.Bucket path (old ++ "\n" ++ log)) := by
      unfold AppendLog
      rw [hp]
      simp only
      rcases hg : s3.GetStr s3c r.Bucket path with ⟨res, s⟩
      rw [hg] at hs hold
      simp only at hs hold
      subst hs
      rcases hold with hok | ⟨hempty, msg, hnf⟩
      · subst hok
        rfl
      · subst hnf hempty
        rfl
    refine ⟨hval, ?_⟩
    intro s' hnil
    rw [hval] at hnil
    simp only [Option.some.injEq] at hnil
    have h1 : (s3.Put (s3c.record (s3.Call.get r.Bucket path)) r.Bucket path
        (old ++ "\n" ++ log)).1 = none := by
      have := congrArg Prod.fst hnil
      simpa [s3.PutStr] using this
    obtain ⟨b, hb, hfind⟩ := s3.Put_none_find _ _ _ _ h1
    have h2 : s' = (s3.Put (s3c.record (s3.Call.get r.Bucket path)) r.Bucket path
        (old ++ "\n" ++ log)).2 := by
      have := congrArg Prod.snd hnil
      simpa [s3.PutStr] using this.symm
    exact ⟨b, _, hb, by rw [h2]; exact hfind, rfl⟩
  · intro err herr hnot
    refine ⟨?_, rfl, ?_⟩
    · unfold AppendLog
      rw [hp]
      simp only
      rcases hg : s3.GetStr s3c r.Bucket path with ⟨res, s⟩
      rw [hg] at hs herr
      simp only at hs herr
      subst hs herr
      cases err <;> simp_all [Err.isNotFoundError]
    · simp [aws.S3API.record, List.filter_append, s3.Call.isWrite]

/-- Witness of claim C22: a second line appended after the first. -/
theorem AppendLog_rule_witness :
    Sample.release.LogPath = some "00000000/project/development/release-1/log" ∧
    Sample.release.AppendLog Sample.loggedStore "second" =
      some (s3.PutStr
        (Sample.loggedStore.record
          (s3.Call.get Sample.release.Bucket "00000000/project/development/release-1/log"))
        Sample.release.Bucket "00000000/project/development/release-1/log"
        ("\nfirst" ++ "\n" ++ "second")) :=
  ⟨rfl, ((AppendLog_rule Sample.release Sample.loggedStore "second"
    "00000000/project/development/release-1/log" rfl).1 "\nfirst" (Or.inl rfl)).1⟩

end Release

namespace Release

theorem split_slash (a a' rest rest' : List Char) (ha : '/' ∉ a) (ha' : '/' ∉ a')
    (h : a ++ '/' :: rest = a' ++ '/' :: rest') : a = a' ∧ rest = rest' := by
  induction a generalizing a' with
  | nil =>
    cases a' with
    | nil => exact ⟨rfl, by simpa using h⟩
    | cons x xs =>
      simp only [List.nil_append, List.cons_append, List.cons.injEq] at h
      exact absurd (by rw [h.1]; exact List.mem_cons_self _ _) ha'
  | cons y ys ih =>
    cases a' with
    | nil =>
      simp only [List.nil_append, List.cons_append, List.cons.injEq] at h
      exact absurd (by rw [← h.1]; exact List.mem_cons_self _ _) ha
    | cons x xs =>
      simp only [List.cons_append, List.cons.injEq] at h
      have hys : '/' ∉ ys := fun hm => ha (List.mem_cons_of_mem _ hm)
      have hxs : '/' ∉ xs := fun hm => ha' (List.mem_cons_of_mem _ hm)
      obtain ⟨e1, e2⟩ := ih xs hys hxs h.2
      exact ⟨by rw [h.1, e1], e2⟩

theorem join_slash (a a' b b' : String) (ha : '/' ∉ a.data) (ha' : '/' ∉ a'.data)
    (h : a ++ "/" ++ b = a' ++ "/" ++ b') : a = a' ∧ b = b' := by
  have hd := congrArg String.data h
  simp only [String.data_append, List.append_assoc] at hd
  simp only [List.singleton_append] at hd
  obtain ⟨e1, e2⟩ := split_slash _ _ _ _ ha ha' hd
  exact ⟨String.ext e1, String.ext e2⟩

theorem append_right_cancel (a a' s : String) (h : a ++ s = a' ++ s) : a = a' := by
  have hd := congrArg String.data h
  simp only [String.data_append] at hd
  exact String.ext (List.append_cancel_right hd)

theorem rootDir_injective (r1 r2 : Release) (h1 : r1.SlashFree) (h2 : r2.SlashFree)
    (d : String) (s : String) (e1 : r1.RootDir.map (fun x => x ++ s) = some d)
    (e2 : r2.RootDir.map (fun x => x ++ s) = some d) :
    r1.AwsAccountID = r2.AwsAccountID ∧ r1.ProjectName = r2.ProjectName ∧
      r1.ConfigName = r2.ConfigName := by
  obtain ⟨ha1, hp1, _, _⟩ := h1
  obtain ⟨ha2, hp2, _, _⟩ := h2
  cases hA1 : r1.AwsAccountID with
  | none => simp [RootDir, ProjectDir, hA1] at e1
  | some a1 =>
  cases hP1 : r1.ProjectName with
  | none => simp [RootDir, ProjectDir, hA1, hP1] at e1
  | some p1 =>
  cases hC1 : r1.ConfigName with
  | none => simp [RootDir, ProjectDir, hA1, hP1, hC1] at e1
  | some c1 =>
  cases hA2 : r2.AwsAccountID with
  | none => simp [RootDir, ProjectDir, hA2] at e2
  | some a2 =>
  cases hP2 : r2.ProjectName with
  | none => simp [RootDir, ProjectDir, hA2, hP2] at e2
  | some p2 =>
  cases hC2 : r2.ConfigName with
  | none => simp [RootDir, ProjectDir, hA2, hP2, hC2] at e2
  | some c2 =>
    simp only [RootDir, ProjectDir, hA1, hP1, hC1, Option.map_some', Option.some.injEq] at e1
    simp only [RootDir, ProjectDir, hA2, hP2, hC2, Option.map_some', Option.some.injEq] at e2
    have heq : a1 ++ "/" ++ p1 ++ "/" ++ c1 = a2 ++ "/" ++ p2 ++ "/" ++ c2 :=
      append_right_cancel _ _ s (e1.trans e2.symm)
    have hassoc : ∀ a p c : String, a ++ "/" ++ p ++ "/" ++ c = a ++ "/" ++ (p ++ "/" ++ c) := by
      intro a p c
      simp [String.append_assoc]
    rw [hassoc, hassoc] at heq
    obtain ⟨ea, hrest⟩ := join_slash a1 a2 _ _ (ha1 a1 hA1) (ha2 a2 hA2) heq
    obtain ⟨ep, ec⟩ := join_slash p1 p2 _ _ (hp1 p1 hP1) (hp2 p2 hP2) hrest
    exact ⟨by rw [ea], by rw [ep], by rw [ec]⟩

theorem releaseDir_injective (r1 r2 : Release) (h1 : r1.SlashFree) (h2 : r2.SlashFree)
    (d : String) (s : String) (e1 : r1.ReleaseDir.map (fun x => x ++ s) = some d)
    (e2 : r2.ReleaseDir.map (fun x => x ++ s) = some d) :
    r1.AwsAccountID = r2.AwsAccountID ∧ r1.ProjectName = r2.ProjectName ∧
      r1.ConfigName = r2.ConfigName ∧ r1.ReleaseID = r2.ReleaseID := by
  obtain ⟨ha1, hp1, hc1, _⟩ := h1
  obtain ⟨ha2, hp2, hc2, _⟩ := h2
  cases hA1 : r1.AwsAccountID with
  | none => simp [ReleaseDir, RootDir, ProjectDir, hA1] at e1
  | some a1 =>
  cases hP1 : r1.ProjectName with
  | none => simp [ReleaseDir, RootDir, ProjectDir, hA1, hP1] at e1
  | some p1 =>
  cases hC1 : r1.ConfigName with
  | none => simp [ReleaseDir, RootDir, ProjectDir, hA1, hP1, hC1] at e1
  | some c1 =>
  cases hI1 : r1.ReleaseID with
  | none => simp [ReleaseDir, RootDir, ProjectDir, hA1, hP1, hC1, hI1] at e1
  | some i1 =>
  cases hA2 : r2.AwsAccountID with
  | none => simp [ReleaseDir, RootDir, ProjectDir, hA2] at e2
  | some a2 =>
  cases hP2 : r2.ProjectName with
  | none => simp [ReleaseDir, RootDir, ProjectDir, hA2, hP2] at e2
  | some p2 =>
  cases hC2 : r2.ConfigName with
  | none => simp [ReleaseDir, RootDir, ProjectDir, hA2, hP2, hC2] at e2
  | some c2 =>
  cases hI2 : r2.ReleaseID with
  | none => simp [ReleaseDir, RootDir, ProjectDir, hA2, hP2, hC2, hI2] at e2
  | some i2 =>
    simp only [ReleaseDir, RootDir, ProjectDir, hA1, hP1, hC1, hI1, Option.map_some',
      Option.some.injEq] at e1
    simp only [ReleaseDir, RootDir, ProjectDir, hA2, hP2, hC2, hI2, Option.map_some',
      Option.some.injEq] at e2
    have heq : a1 ++ "/" ++ p1 ++ "/" ++ c1 ++ "/" ++ i1
        = a2 ++ "/" ++ p2 ++ "/" ++ c2 ++ "/" ++ i2 :=
      append_right_cancel _ _ s (e1.trans e2.symm)
    have hassoc : ∀ a p c i : String,
        a ++ "/" ++ p ++ "/" ++ c ++ "/" ++ i = a ++ "/" ++ (p ++ "/" ++ (c ++ "/" ++ i)) := by
      intro a p c i
      simp [String.append_assoc]
    rw [hassoc, hassoc] at heq
    obtain ⟨ea, hrest⟩ := join_slash a1 a2 _ _ (ha1 a1 hA1) (ha2 a2 hA2) heq
    obtain ⟨ep, hrest2⟩ := join_slash p1 p2 _ _ (hp1 p1 hP1) (hp2 p2 hP2) hrest
    obtain ⟨ec, ei⟩ := join_slash c1 c2 _ _ (hc1 c1 hC1) (hc2 c2 hC2) hrest2
    exact ⟨by rw [ea], by rw [ep], by rw [ec], by rw [ei]⟩

/-- Claim C23, refuted as stated in its last clause: two release attempts with
slash-free identifiers that differ in their release id address the same halt
object, the same root lock and the same user lock. -/
theorem distinct_releases_share_halt :
    Sample.release.ReleaseID ≠ Sample.nextRelease.ReleaseID ∧
    Sample.release.HaltPath = Sample.nextRelease.HaltPath ∧
    Sample.release.HaltPath = some "00000000/project/development/halt" ∧
    Sample.release.RootLockPath = Sample.nextRelease.RootLockPath ∧
    Sample.release.UserLockPath = Sample.nextRelease.UserLockPath := by
  refine ⟨by decide, rfl, rfl, rfl, rfl⟩

/-- Claim C23, amended. Path derivation is injective on slash-free identifiers:
for two releases whose account id, project name, config name and release id
hold no `/`, an equal `ReleasePath`, `ReleaseLockPath` or `LogPath` implies
equal account id, project name, config name and release id, and an equal
`RootLockPath`, `UserLockPath` or `HaltPath` implies equal account id, project
name and config name. So releases that differ in one of the four never address
the same release, release-lock or log object, and releases that differ in
account, project or config never address the same root-lock, user-lock or halt
object. -/
theorem paths_injective (r1 r2 : Release) (h1 : r1.SlashFree) (h2 : r2.SlashFree) :
    (∀ path, (r1.ReleasePath = some path ∧ r2.ReleasePath = some path) ∨
        (r1.ReleaseLockPath = some path ∧ r2.ReleaseLockPath = some path) ∨
        (r1.LogPath = some path ∧ r2.LogPath = some path) →
      r1.AwsAccountID = r2.AwsAccountID ∧ r1.ProjectName = r2.ProjectName ∧
        r1.ConfigName = r2.ConfigName ∧ r1.ReleaseID = r2.ReleaseID) ∧
    (∀ path, (r1.RootLockPath = some path ∧ r2.RootLockPath = some path) ∨
        (r1.UserLockPath = some path ∧ r2.UserLockPath = some path) ∨
        (r1.HaltPath = some path ∧ r2.HaltPath = some path) →
      r1.AwsAccountID = r2.AwsAccountID ∧ r1.ProjectName = r2.ProjectName ∧
        r1.ConfigName = r2.ConfigName) := by
  constructor
  · rintro path (⟨e1, e2⟩ | ⟨e1, e2⟩ | ⟨e1, e2⟩)
    · exact releaseDir_injective r1 r2 h1 h2 path "/release" e1 e2
    · exact releaseDir_injective r1 r2 h1 h2 path "/lock" e1 e2
    · exact releaseDir_injective r1 r2 h1 h2 path "/log" e1 e2
  · rintro path (⟨e1, e2⟩ | ⟨e1, e2⟩ | ⟨e1, e2⟩)
    · exact rootDir_injective r1 r2 h1 h2 path "/lock" e1 e2
    · exact rootDir_injective r1 r2 h1 h2 path "/user-lock" e1 e2
    · exact rootDir_injective r1 r2 h1 h2 path "/halt" e1 e2

/-- Witness of claim C23, amended: the sample release and itself under another
release id are slash-free and differ in their release id, so they do not
address the same release lock. -/
theorem paths_injective_witness :
    Sample.release.SlashFree ∧ Sample.nextRelease.SlashFree ∧
    Sample.release.ReleaseLockPath ≠ Sample.nextRelease.ReleaseLockPath := by
  have hs1 : Sample.release.SlashFree := by
    refine ⟨?_, ?_, ?_, ?_⟩ <;> intro v hv <;>
      (simp only [Sample.release, Option.some.injEq] at hv
       subst hv
       decide)
  have hs2 : Sample.nextRelease.SlashFree := by
    refine ⟨?_, ?_, ?_, ?_⟩ <;> intro v hv <;>
      (simp only [Sample.nextRelease, Sample.release, Option.some.injEq] at hv
       subst hv
       decide)
  refine ⟨hs1, hs2, ?_⟩
  intro heq
  have hid := ((paths_injective Sample.release Sample.nextRelease hs1 hs2).1
    "00000000/project/development/release-1/lock" (Or.inr (Or.inl ⟨rfl, heq ▸ rfl⟩))).2.2.2
  exact absurd hid (by decide)

end Release
